import Mathlib

/-!
Shallow embedding of the ibumaku-pwa game-progress scoring engine
(`src/logic/game.ts`) and achievement engine (`src/logic/achievements.ts`),
together with proofs settling the frozen claims about the natural-language
specification.

Modelling conventions:
* TypeScript numbers holding timestamps, durations and scores are modelled
  as `Int`; geographic coordinates and distances as `Rat` (the code never
  relies on floating-point rounding for the claims at hand).
* `Date.now()` is passed in explicitly as a parameter `t`.
* `haversineMeters` lives in `src/utils/geo.ts`, which is not among the
  provided sources; the spec describes it as a deterministic, total
  distance function.  Every engine function is therefore parameterised
  over the metric `hav : LatLng → LatLng → Rat`, so all theorems hold for
  the real haversine distance in particular.
* JavaScript `Set` built from a list is modelled by `dedupKeepFirst`
  (insertion order, first occurrence kept), `set.add` by `setAdd`
  (append if absent) and `Array.from` by the underlying list itself.
* JavaScript truthiness tests on optional numbers (`if (x)`) and optional
  strings are modelled faithfully: `0`, `undefined` and `""` are falsy.
* `Math.random()`-driven draws are modelled by an explicit stream
  `rand : Nat → Nat`; the index drawn at step `k` from a list of length
  `len` is `rand k % len`, which ranges over exactly the indices the
  JavaScript `Math.floor(Math.random() * len)` can produce.
-/

/-- Source: `LatLng` from `src/types.ts`. -/
structure LatLng where
  lat : Rat
  lng : Rat
deriving DecidableEq, Repr

/-- Source: `Spot` from `src/types.ts` (fields irrelevant to the engine omitted:
`Location`, `size_class`, `Elevation`, … are never read by the embedded code). -/
structure Spot where
  ID : String
  Name : String
  Latitude : Rat
  Longitude : Rat
  Score : Int
  Category : Option String := none
  PostalCode : Option String := none
  Address : Option String := none
  JudgeTarget : Nat := 1
deriving DecidableEq, Repr

/-- Source: `Station` from `src/types.ts`. -/
structure Station where
  stationId : String
  name : String
  orderIndex : Int
  lat : Rat
  lng : Rat
  score : Option Int := none
deriving DecidableEq, Repr

/-- City-filter flags of `GameConfig.cityFilter`. -/
structure CityFilter where
  ibusuki : Bool
  minamikyushu : Bool
  makurazaki : Bool
deriving DecidableEq, Repr

/-- Resolved `GameConfig` (start/goal already concrete, as stored in
`GameProgress.config`). -/
structure GameConfig where
  durationMin : Int
  jrEnabled : Bool
  cpCount : Int
  start : LatLng
  goal : LatLng
  cityFilter : Option CityFilter := none
deriving DecidableEq, Repr

/-- Event type of `visitedStationEvents` entries. -/
inductive EvType where
  | BOARD
  | ALIGHT
deriving DecidableEq, Repr

/-- One `visitedStationEvents` entry. -/
structure StationEvent where
  type : EvType
  stationId : String
  atMs : Int
deriving DecidableEq, Repr

/-- Source: `lastLocation` record. -/
structure LastLocation where
  lat : Rat
  lng : Rat
  accuracy : Rat
  atMs : Int
deriving DecidableEq, Repr

/-- Source: `endReason` values. -/
inductive EndReason where
  | GOAL
  | ABANDONED
deriving DecidableEq, Repr

/-- Source: `GameProgress` from `src/types.ts`. -/
structure GameProgress where
  startedAtMs : Int
  config : GameConfig
  cpSpotIds : List String
  reachedCpIds : List String
  visitedSpotIds : List String
  visitedStationEvents : List StationEvent
  boardedStationId : Option String := none
  cooldownUntilMs : Option Int := none
  usedStationIds : List String
  scoredStationIds : Option (List String) := none
  score : Int
  penalty : Int
  endedAtMs : Option Int := none
  endReason : Option EndReason := none
  lastLocation : Option LastLocation := none
deriving DecidableEq, Repr

/-- Check-in result kinds. -/
inductive CheckInKind where
  | SPOT
  | CP
  | JR_BOARD
  | JR_ALIGHT
  | GOAL
deriving DecidableEq, Repr

/-- Source: `CheckInResult` from `src/logic/game.ts`. -/
inductive CheckInResult where
  | ok (kind : CheckInKind) (message : String) (progress : GameProgress)
  | err (code : String) (message : String)
deriving DecidableEq, Repr

/-- JavaScript truthiness of an optional number: `undefined` and `0` are falsy. -/
def truthyI : Option Int → Bool
  | none => false
  | some v => v != 0

/-- JavaScript truthiness of an optional string: `undefined` and `""` are falsy. -/
def truthyS : Option String → Bool
  | none => false
  | some s => s != ""

/-- Source: `new Set(xs)` then `Array.from`: deduplicate keeping first occurrences. -/
def dedupKeepFirst (xs : List String) : List String :=
  xs.foldl (fun acc x => if x ∈ acc then acc else acc ++ [x]) []

/-- Source: `set.add x` on a set represented as a duplicate-free list in insertion order. -/
def setAdd (l : List String) (x : String) : List String :=
  if x ∈ l then l else l ++ [x]

/-- Constants from `src/logic/game.ts`. -/
def CHECKIN_RADIUS_M : Rat := 50

/-- Dense-cluster threshold (m). -/
def DENSE_SPOT_DISTANCE_M : Rat := 3

/-- Maximum acceptable reported accuracy (m). -/
def MAX_ACCURACY_M : Rat := 100

/-- JR cooldown (s). -/
def JR_COOLDOWN_SEC : Int := 60

/-- Modelled from the spec: `floorMinutesFromMs` lives in `src/utils/time.ts`,
which is not among the provided sources.  The spec defines it as
"floor-minutes": the whole minutes of a millisecond quantity with the
seconds truncated down to the minute (not rounded). -/
def floorMinutesFromMs (ms : Int) : Int :=
  Int.fdiv ms 60000

/-- Source: `calcPenalty` from `src/logic/game.ts` lines 18–24. -/
def calcPenalty (startedAtMs durationMin goalAtMs : Int) : Int :=
  let plannedEnd := startedAtMs + durationMin * 60000
  let earlyThreshold := plannedEnd - 15 * 60000
  if goalAtMs < earlyThreshold then floorMinutesFromMs (earlyThreshold - goalAtMs)
  else if goalAtMs > plannedEnd then floorMinutesFromMs (goalAtMs - plannedEnd)
  else 0

/-- JavaScript `Math.round` on a rational: round half up. -/
def roundQ (q : Rat) : Int := Int.floor (q + 1/2)

/-- Source: `localeCompare(...) < 0`, i.e. the lexicographic order on strings,
computed on the underlying character lists (definitionally the same order as
`String.instLT`, but kernel-reducible). -/
def strLt (a b : String) : Bool := decide (a.data < b.data)

/-- JavaScript `String.prototype.trim`: strip leading and trailing
whitespace, computed on the underlying character list. -/
def strTrim (s : String) : String :=
  ⟨((s.data.dropWhile (fun c => c.isWhitespace)).reverse.dropWhile
      (fun c => c.isWhitespace)).reverse⟩

/-- Candidate record `{ spot, dist }` used by candidate selection. -/
structure SpotCandidate where
  spot : Spot
  dist : Rat
deriving DecidableEq, Repr

/-- Source: `listSpotCandidatesWithinRadius` from `src/logic/game.ts` lines 46–51. -/
def listSpotCandidatesWithinRadius (hav : LatLng → LatLng → Rat) (spots : List Spot)
    (loc : LatLng) : List SpotCandidate :=
  (spots.map (fun s =>
      { spot := s, dist := hav loc { lat := s.Latitude, lng := s.Longitude } })).filter
    (fun x => x.dist ≤ CHECKIN_RADIUS_M)

/-- The sort comparator shared by `pickCandidateSpotWithinRadius` (lines 35–39)
and the dense-cluster re-rank (lines 114–119): `a` strictly precedes `b` when
it has smaller distance, or equal distance and larger score, or equal distance
and score and lexicographically smaller ID (`localeCompare` modelled by the
character-wise order on strings). -/
def candBefore (a b : SpotCandidate) : Bool :=
  if a.dist ≠ b.dist then decide (a.dist < b.dist)
  else if a.spot.Score ≠ b.spot.Score then decide (b.spot.Score < a.spot.Score)
  else strLt a.spot.ID b.spot.ID

/-- The source sorts ascending by a strict comparator with JavaScript's stable
`Array.prototype.sort` and takes element `[0]`; that element is the first-listed
minimum, computed here directly by a fold. -/
def firstMinBy {α : Type} (before : α → α → Bool) : List α → Option α
  | [] => none
  | c :: cs => some (cs.foldl (fun best x => if before x best then x else best) c)

/-- Source: `pickCandidateSpotWithinRadius` from `src/logic/game.ts` lines 26–42. -/
def pickCandidateSpotWithinRadius (hav : LatLng → LatLng → Rat) (spots : List Spot)
    (loc : LatLng) : Option SpotCandidate :=
  firstMinBy candBefore (listSpotCandidatesWithinRadius hav spots loc)

/-- The `coords` map of `pickSpotCandidateWithDenseCluster`, keyed by spot ID;
a JavaScript `Map` keeps the last write for a duplicated key. -/
def coordsOf (candidates : List SpotCandidate) (id : String) : Option LatLng :=
  ((candidates.filter (fun c => c.spot.ID = id)).getLast?).map
    (fun c => { lat := c.spot.Latitude, lng := c.spot.Longitude })

/-- Inner loop of the cluster BFS (lines 92–101): scan all candidates and absorb
those not yet in the cluster whose distance to `curLoc` is within the threshold,
appending them to both the cluster and the queue. -/
def scanNeighbors (hav : LatLng → LatLng → Rat) (thr : Rat) (candidates : List SpotCandidate)
    (curLoc : LatLng) (st : List String × List String) : List String × List String :=
  candidates.foldl (fun st o =>
    if o.spot.ID ∈ st.1 then st
    else
      match coordsOf candidates o.spot.ID with
      | none => st
      | some oLoc =>
        if hav curLoc oLoc ≤ thr then (st.1 ++ [o.spot.ID], st.2 ++ [o.spot.ID]) else st) st

/-- The `while (queue.length)` BFS of lines 88–102, with explicit fuel.  Each
iteration pops one queue entry; every ID is enqueued at most once, so fuel
`candidates.length + 1` drains the queue completely. -/
def bfsCluster (hav : LatLng → LatLng → Rat) (thr : Rat) (candidates : List SpotCandidate) :
    Nat → List String → List String → List String
  | 0, _, cluster => cluster
  | _ + 1, [], cluster => cluster
  | fuel + 1, cur :: queue, cluster =>
    match coordsOf candidates cur with
    | none => bfsCluster hav thr candidates fuel queue cluster
    | some curLoc =>
      let st := scanNeighbors hav thr candidates curLoc (cluster, queue)
      bfsCluster hav thr candidates fuel st.2 st.1

/-- Source: `pickSpotCandidateWithDenseCluster` from `src/logic/game.ts` lines 59–121. -/
def pickSpotCandidateWithDenseCluster (hav : LatLng → LatLng → Rat) (progress : GameProgress)
    (loc : LatLng) (judgeSpots : List Spot) (denseThresholdM : Rat) : Option SpotCandidate :=
  let candidates := listSpotCandidatesWithinRadius hav judgeSpots loc
  match firstMinBy candBefore candidates with
  | none => none
  | some base =>
    let cluster := bfsCluster hav denseThresholdM candidates (candidates.length + 1)
      [base.spot.ID] [base.spot.ID]
    if cluster.length ≤ 1 then some base
    else
      let clusterCandidates := candidates.filter (fun c => c.spot.ID ∈ cluster)
      let unvisited := clusterCandidates.filter (fun c => c.spot.ID ∉ progress.visitedSpotIds)
      let pool := if unvisited.length ≠ 0 then unvisited else clusterCandidates
      match firstMinBy candBefore pool with
      | some top => some top
      | none => some base

/-- Source: `checkInSpotOrCp` from `src/logic/game.ts` lines 187–230. -/
def checkInSpotOrCp (hav : LatLng → LatLng → Rat) (t : Int) (progress : GameProgress)
    (loc : LatLng) (accuracy : Rat) (judgeSpots : List Spot) : CheckInResult :=
  if truthyI progress.endedAtMs then .err "GAME_ENDED" "ゲームは終了しています。"
  else if accuracy > MAX_ACCURACY_M then
    .err "ACCURACY_TOO_BAD"
      ("accuracyが大きすぎます（" ++ toString (roundQ accuracy) ++ "m）。100m以内になるまで待ってください。")
  else
    match pickSpotCandidateWithDenseCluster hav progress loc judgeSpots DENSE_SPOT_DISTANCE_M with
    | none => .err "NO_SPOT" "50m以内にスポットが見つかりません。"
    | some cand =>
      let spot := cand.spot
      if truthyS progress.boardedStationId && spot.Category ≠ some "駅" then
        .err "IN_TRAIN" "乗車中は駅チェックインのみ可能です。降車後に再試行してください。"
      else
        let visited := dedupKeepFirst progress.visitedSpotIds
        let reachedCp := dedupKeepFirst progress.reachedCpIds
        let isCp := spot.ID ∈ progress.cpSpotIds
        let add : Int := if spot.ID ∈ visited then 0 else spot.Score
        let visited2 := setAdd visited spot.ID
        let reachedCp2 := if isCp then setAdd reachedCp spot.ID else reachedCp
        let next : GameProgress := { progress with
          visitedSpotIds := visited2
          reachedCpIds := reachedCp2
          score := progress.score + add
          lastLocation := some { lat := loc.lat, lng := loc.lng, accuracy := accuracy, atMs := t } }
        .ok (if isCp then .CP else .SPOT)
          ((if isCp then "CP達成：" else "スポット達成：") ++ spot.Name ++ "（+" ++ toString add ++ "）")
          next

/-- Station candidate record `{ st, d }`. -/
structure StationCandidate where
  st : Station
  d : Rat
deriving DecidableEq, Repr

/-- Comparator of `pickStationWithinRadius` (lines 236–239): distance
ascending, then station ID ascending. -/
def stBefore (a b : StationCandidate) : Bool :=
  if a.d ≠ b.d then decide (a.d < b.d)
  else strLt a.st.stationId b.st.stationId

/-- Source: `pickStationWithinRadius` from `src/logic/game.ts` lines 232–241. -/
def pickStationWithinRadius (hav : LatLng → LatLng → Rat) (stations : List Station)
    (loc : LatLng) : Option StationCandidate :=
  firstMinBy stBefore
    ((stations.map (fun st => { st := st, d := hav loc { lat := st.lat, lng := st.lng } })).filter
      (fun x => x.d ≤ CHECKIN_RADIUS_M))

/-- The guard `progress.cooldownUntilMs && t < progress.cooldownUntilMs`
(JavaScript truthiness: a stored `0` is falsy). -/
def cooldownActive (t : Int) : Option Int → Bool
  | none => false
  | some c => c != 0 && t < c

/-- Remaining cooldown seconds `Math.ceil((cooldownUntilMs - t)/1000)`,
for the `COOLDOWN` message (the branch only runs with `t < c`). -/
def cooldownLeftSec (t : Int) : Option Int → Int
  | none => 0
  | some c => (c - t + 999) / 1000

/-- Source: `jrBoard` from `src/logic/game.ts` lines 243–267. -/
def jrBoard (hav : LatLng → LatLng → Rat) (t : Int) (progress : GameProgress)
    (loc : LatLng) (accuracy : Rat) (stations : List Station) : CheckInResult :=
  if truthyI progress.endedAtMs then .err "GAME_ENDED" "ゲームは終了しています。"
  else if accuracy > MAX_ACCURACY_M then
    .err "ACCURACY_TOO_BAD"
      ("accuracyが大きすぎます（" ++ toString (roundQ accuracy) ++ "m）。100m以内になるまで待ってください。")
  else if !progress.config.jrEnabled then .err "JR_DISABLED" "JRはOFFです。"
  else if cooldownActive t progress.cooldownUntilMs then
    .err "COOLDOWN" ("クールダウン中（残り" ++ toString (cooldownLeftSec t progress.cooldownUntilMs) ++ "秒）")
  else if truthyS progress.boardedStationId then
    .err "ALREADY_BOARDED" "すでに乗車中です。降車チェックインをしてください。"
  else
    match pickStationWithinRadius hav stations loc with
    | none => .err "NO_STATION" "50m以内に駅が見つかりません。"
    | some cand =>
      let stationId := cand.st.stationId
      .ok .JR_BOARD ("乗車チェックイン：" ++ cand.st.name)
        { progress with
          boardedStationId := some stationId
          visitedStationEvents :=
            progress.visitedStationEvents ++ [{ type := .BOARD, stationId := stationId, atMs := t }]
          cooldownUntilMs := some (t + JR_COOLDOWN_SEC * 1000)
          lastLocation := some { lat := loc.lat, lng := loc.lng, accuracy := accuracy, atMs := t } }

/-- The `byOrder` map `new Map(stations.map(s => [s.orderIndex, s]))`; a
JavaScript `Map` keeps the last write for a duplicated key. -/
def byOrderGet (stations : List Station) (i : Int) : Option Station :=
  (stations.filter (fun s => s.orderIndex = i)).getLast?

/-- The `byId` map `new Map(stations.map(s => [s.stationId, s]))`. -/
def byIdGet (stations : List Station) (id : String) : Option Station :=
  (stations.filter (fun s => s.stationId = id)).getLast?

/-- Source: `stationsBetween` from `src/logic/game.ts` lines 269–279: the for-loop
over `orderIndex` stepping ±1, unrolled as the list of visited indices
(`a+1 … b−1` ascending when `a < b`, `a−1 … b+1` descending otherwise). -/
def stationsBetween (board alight : Station) (byOrder : Int → Option Station) : List Station :=
  let a := board.orderIndex
  let b := alight.orderIndex
  if a < b then
    ((List.range (b - a - 1).toNat).map (fun (k : Nat) => a + 1 + (k : Int))).filterMap byOrder
  else
    ((List.range (a - b - 1).toNat).map (fun (k : Nat) => a - 1 - (k : Int))).filterMap byOrder

/-- Source: `scoreOf` (line 306): `isFinite(st.score ?? 0) ? (st.score ?? 0) : 0`.
Every `Int` is finite, so the NaN/∞ guard never fires in the model. -/
def scoreOf (st : Station) : Int := (st.score).getD 0

/-- Source: `jrAlight` from `src/logic/game.ts` lines 281–335.  The station-scoring
loop (lines 311–316) is the fold carrying the `scored` set and the
accumulated `jrScore`. -/
def jrAlight (hav : LatLng → LatLng → Rat) (t : Int) (progress : GameProgress)
    (loc : LatLng) (accuracy : Rat) (stations : List Station) : CheckInResult :=
  if truthyI progress.endedAtMs then .err "GAME_ENDED" "ゲームは終了しています。"
  else if accuracy > MAX_ACCURACY_M then
    .err "ACCURACY_TOO_BAD"
      ("accuracyが大きすぎます（" ++ toString (roundQ accuracy) ++ "m）。100m以内になるまで待ってください。")
  else if !progress.config.jrEnabled then .err "JR_DISABLED" "JRはOFFです。"
  else if cooldownActive t progress.cooldownUntilMs then
    .err "COOLDOWN" ("クールダウン中（残り" ++ toString (cooldownLeftSec t progress.cooldownUntilMs) ++ "秒）")
  else if !truthyS progress.boardedStationId then
    .err "NOT_BOARDED" "乗車チェックインが先です。"
  else
    let boardedId := progress.boardedStationId.getD ""
    match pickStationWithinRadius hav stations loc with
    | none => .err "NO_STATION" "50m以内に駅が見つかりません。"
    | some cand =>
      let alightId := cand.st.stationId
      if alightId = boardedId then .err "SAME_STATION" "同一駅での乗車・降車はできません。"
      else
        match byIdGet stations boardedId with
        | none => .err "BOARD_STATION_UNKNOWN" "乗車駅が駅マスタに見つかりません。"
        | some board =>
          let pass := stationsBetween board cand.st (byOrderGet stations)
          let scored0 := dedupKeepFirst (progress.scoredStationIds.getD [])
          let rideStations := board :: pass ++ [cand.st]
          let folded := rideStations.foldl (fun (st : List String × Int) s =>
            if s.stationId ∈ st.1 then st
            else (st.1 ++ [s.stationId], st.2 + scoreOf s)) (scored0, 0)
          let passNames := String.intercalate "、" (pass.map (fun s => s.name))
          .ok .JR_ALIGHT
            (if pass.length ≠ 0 then
              "降車チェックイン：" ++ cand.st.name ++ "（通過：" ++ passNames ++ "、+" ++ toString folded.2 ++ "）"
            else "降車チェックイン：" ++ cand.st.name ++ "（+" ++ toString folded.2 ++ "）")
            { progress with
              score := progress.score + folded.2
              boardedStationId := none
              scoredStationIds := some folded.1
              visitedStationEvents :=
                progress.visitedStationEvents ++ [{ type := .ALIGHT, stationId := alightId, atMs := t }]
              cooldownUntilMs := some (t + JR_COOLDOWN_SEC * 1000)
              lastLocation := some { lat := loc.lat, lng := loc.lng, accuracy := accuracy, atMs := t } }

/-- Source: `goalCheckIn` from `src/logic/game.ts` lines 337–361. -/
def goalCheckIn (hav : LatLng → LatLng → Rat) (t : Int) (progress : GameProgress)
    (loc : LatLng) (accuracy : Rat) : CheckInResult :=
  if truthyI progress.endedAtMs then .err "GAME_ENDED" "ゲームは終了しています。"
  else if accuracy > MAX_ACCURACY_M then
    .err "ACCURACY_TOO_BAD"
      ("accuracyが大きすぎます（" ++ toString (roundQ accuracy) ++ "m）。100m以内になるまで待ってください。")
  else if hav loc progress.config.goal > CHECKIN_RADIUS_M then
    .err "NOT_AT_GOAL" "ゴール地点の50m以内でチェックインしてください。"
  else
    let timePenalty := calcPenalty progress.startedAtMs progress.config.durationMin t
    let reachedCp := dedupKeepFirst progress.reachedCpIds
    let cpPenalty := max 0 ((progress.cpSpotIds.length : Int) - (reachedCp.length : Int)) * 100
    let penalty := timePenalty + cpPenalty
    .ok .GOAL
      ("ゴール！ペナルティ" ++ toString penalty ++ "点" ++
        (if cpPenalty > 0 then "（CP未達-" ++ toString cpPenalty ++ "点）" else ""))
      { progress with
        endedAtMs := some t
        endReason := some .GOAL
        penalty := penalty
        score := progress.score - penalty
        lastLocation := some { lat := loc.lat, lng := loc.lng, accuracy := accuracy, atMs := t } }

/-- JavaScript `hay.includes(needle)`: substring containment, computed on the
underlying character lists. -/
def strIncludes (hay needle : String) : Bool :=
  (List.range (hay.data.length + 1)).any
    (fun i => needle.data.isPrefixOf (hay.data.drop i))

/-- Source: `filterCpPoolByCity` from `src/logic/game.ts` lines 140–154. -/
def filterCpPoolByCity (allJudgeSpots : List Spot) (config : GameConfig) : List Spot :=
  match config.cityFilter with
  | none => allJudgeSpots
  | some f =>
    if !(f.ibusuki || f.minamikyushu || f.makurazaki) then allJudgeSpots
    else
      allJudgeSpots.filter (fun s =>
        let addr := strTrim ((s.Address).getD "")
        if addr = "" then false
        else if f.ibusuki && strIncludes addr "指宿市" then true
        else if f.minamikyushu && strIncludes addr "南九州市" then true
        else if f.makurazaki && strIncludes addr "枕崎市" then true
        else false)

/-- Source: `detourRatioMVP` from `src/utils/graph.ts` (the `spots` argument is unused
by the source body as well; `|| 1` guards a zero start–goal distance). -/
def detourRatioMVP (hav : LatLng → LatLng → Rat) (spots : List Spot)
    (start goal : LatLng) (candidate : Spot) : Rat :=
  let dSG0 := hav start goal
  let dSG := if dSG0 = 0 then 1 else dSG0
  let dS := hav start { lat := candidate.Latitude, lng := candidate.Longitude }
  let dG := hav goal { lat := candidate.Latitude, lng := candidate.Longitude }
  (dS + dG) / dSG

/-- Insertion step of the sort used for the detour-ratio ranking. -/
def insertLE {α : Type} (le : α → α → Bool) (x : α) : List α → List α
  | [] => [x]
  | y :: ys => if le x y then x :: y :: ys else y :: insertLE le x ys

/-- Source: `Array.prototype.sort` with a numeric comparator, modelled by insertion
sort (any comparator-consistent sort yields the same observable facts used
below: permutation of the input). -/
def sortLE {α : Type} (le : α → α → Bool) : List α → List α
  | [] => []
  | x :: xs => insertLE le x (sortLE le xs)

/-- The `while (picked.length < n && ids.length)` splice loop of
`selectCpSpotsMVP` (lines 170–173 and 180–183): at each step draw index
`rand step % ids.length` and remove that entry. -/
def drawLoop (rand : Nat → Nat) : Nat → Nat → List String → List String
  | 0, _, _ => []
  | _ + 1, _, [] => []
  | k + 1, step, x :: xs =>
    let idx := rand step % (x :: xs).length
    (x :: xs).get ⟨idx, Nat.mod_lt _ (Nat.succ_pos _)⟩ ::
      drawLoop rand k (step + 1) ((x :: xs).eraseIdx idx)

/-- Source: `selectCpSpotsMVP` from `src/logic/game.ts` lines 156–185. -/
def selectCpSpotsMVP (hav : LatLng → LatLng → Rat) (rand : Nat → Nat)
    (allJudgeSpots : List Spot) (config : GameConfig) : List String :=
  let n := max 0 (min 5 config.cpCount)
  if n = 0 then []
  else
    let pool := filterCpPoolByCity allJudgeSpots config
    if n ≤ 2 then
      let scored := sortLE (fun a b => decide (a.2 ≤ b.2))
        (pool.map (fun s => (s.ID, detourRatioMVP hav allJudgeSpots config.start config.goal s)))
      let K := min 30 scored.length
      let top := (scored.take K).map (fun x => x.1)
      drawLoop rand n.toNat 0 top
    else
      drawLoop rand n.toNat 0 (pool.map (fun s => s.ID))

/-- Source: `AchievementUnlock` from `src/logic/achievements.ts`. -/
structure AchievementUnlock where
  id : String
  name : String
  points : Int
deriving DecidableEq, Repr

/-- Achievement ID constants. -/
def ACH_ID_ALL_SPOTS : String := "ACH_ALL_SPOTS"

/-- Ibusuki city achievement ID. -/
def ACH_ID_CITY_IBUSUKI : String := "ACH_CITY_IBUSUKI"

/-- Minamikyushu city achievement ID. -/
def ACH_ID_CITY_MINAMIKYUSHU : String := "ACH_CITY_MINAMIKYUSHU"

/-- Makurazaki city achievement ID. -/
def ACH_ID_CITY_MAKURAZAKI : String := "ACH_CITY_MAKURAZAKI"

/-- Source: `encodeURIComponent`, a JavaScript builtin: an injective percent-encoding.
The claims depend only on its injectivity and on both unlock computations
using the same encoding, so it is modelled as the identity. -/
def encodeURIComponentM (s : String) : String := s

/-- Source: `makePostalId` from `src/logic/achievements.ts`. -/
def makePostalId (postalCode : String) : String := "ACH_POSTAL_" ++ postalCode

/-- Source: `makeCategoryId` from `src/logic/achievements.ts`. -/
def makeCategoryId (category : String) : String := "ACH_CAT_" ++ encodeURIComponentM category

/-- The `push` helper of `computeGameUnlocks` (lines 108–111): append unless
an unlock with the same ID is already present. -/
def pushU (l : List AchievementUnlock) (u : AchievementUnlock) : List AchievementUnlock :=
  if l.any (fun x => x.id = u.id) then l else l ++ [u]

/-- The `push` helper of `computeCumulativeUnlockedIds` (lines 198–201). -/
def pushId (l : List String) (id : String) : List String :=
  if id ∈ l then l else l ++ [id]

/-- Source: `judgeSpots.filter(s => s.JudgeTarget === 1)`, shared by both unlock
computations. -/
def judgeTargets (judgeSpots : List Spot) : List Spot :=
  judgeSpots.filter (fun s => s.JudgeTarget = 1)

/-- The fixed city groups as (id, city-name) pairs.  `computeGameUnlocks`
additionally attaches the display name `cityGroupName city` and 2000 points
to each entry; `computeCumulativeUnlockedIds` uses only id and city — both
source literals list the same three entries in this order. -/
def cityGroupsBase : List (String × String) :=
  [(ACH_ID_CITY_IBUSUKI, "指宿市"),
   (ACH_ID_CITY_MINAMIKYUSHU, "南九州市"),
   (ACH_ID_CITY_MAKURAZAKI, "枕崎市")]

/-- Display name of a city achievement. -/
def cityGroupName (city : String) : String := "地域（" ++ city ++ "）全スポット巡回達成"

/-- Source: `targets.filter(s => (s.Address ?? '').includes(city))`. -/
def cityGroupSpots (targets : List Spot) (city : String) : List Spot :=
  targets.filter (fun s => strIncludes ((s.Address).getD "") city)

/-- Keys of the `byPostal` / `byCat` maps: trimmed nonempty key strings in
first-occurrence order (a JavaScript `Map` iterates in insertion order). -/
def groupKeys (targets : List Spot) (key : Spot → Option String) : List String :=
  targets.foldl (fun ks s =>
    let k := strTrim ((key s).getD "")
    if k = "" then ks else if k ∈ ks then ks else ks ++ [k]) []

/-- The group stored under key `k`: all targets whose trimmed key equals `k`,
in order (the map's per-key arrays are built by `push`). -/
def groupOf (targets : List Spot) (key : Spot → Option String) (k : String) : List Spot :=
  targets.filter (fun s => strTrim ((key s).getD "") = k)

/-- Source: `postalPoints` step function (lines 142–149). -/
def postalPoints (n : Nat) : Int :=
  if n ≤ 1 then 30
  else if n ≤ 3 then 50
  else if n ≤ 6 then 60
  else if n ≤ 10 then 100
  else if n ≤ 20 then 200
  else 400

/-- Source: `computeGameUnlocks` from `src/logic/achievements.ts` lines 103–182. -/
def computeGameUnlocks (progress : GameProgress) (judgeSpots : List Spot) :
    List AchievementUnlock :=
  let visited := progress.visitedSpotIds
  let targets := judgeTargets judgeSpots
  let u0 : List AchievementUnlock :=
    if targets.length > 0 && targets.all (fun s => decide (s.ID ∈ visited)) then
      pushU [] { id := ACH_ID_ALL_SPOTS, name := "全スポット巡回達成", points := 6000 }
    else []
  let u1 := cityGroupsBase.foldl (fun acc g =>
    let group := cityGroupSpots targets g.2
    if group.length ≠ 0 && group.all (fun s => decide (s.ID ∈ visited)) then
      pushU acc { id := g.1, name := cityGroupName g.2, points := 2000 }
    else acc) u0
  let u2 := (groupKeys targets Spot.PostalCode).foldl (fun acc k =>
    let group := groupOf targets Spot.PostalCode k
    if group.length ≠ 0 && group.all (fun s => decide (s.ID ∈ visited)) then
      pushU acc { id := makePostalId k,
                  name := "地域（郵便番号：" ++ k ++ "）全スポット巡回達成",
                  points := postalPoints group.length }
    else acc) u1
  let u3 := (groupKeys targets Spot.Category).foldl (fun acc k =>
    let group := groupOf targets Spot.Category k
    if group.length ≠ 0 && group.all (fun s => decide (s.ID ∈ visited)) then
      pushU acc { id := makeCategoryId k,
                  name := "カテゴリ（" ++ k ++ "）全スポット巡回達成",
                  points := 500 }
    else acc) u2
  u3

/-- Source: `computeCumulativeUnlockedIds` from `src/logic/achievements.ts`
lines 192–241 (the ever-visited `Set` parameter modelled as a list used
for membership). -/
def computeCumulativeUnlockedIds (everVisitedSpotIds : List String)
    (judgeSpots : List Spot) : List String :=
  let visited := everVisitedSpotIds
  let targets := judgeTargets judgeSpots
  let u0 : List String :=
    if targets.length > 0 && targets.all (fun s => decide (s.ID ∈ visited)) then
      pushId [] ACH_ID_ALL_SPOTS
    else []
  let u1 := cityGroupsBase.foldl (fun acc g =>
    let group := cityGroupSpots targets g.2
    if group.length ≠ 0 && group.all (fun s => decide (s.ID ∈ visited)) then
      pushId acc g.1
    else acc) u0
  let u2 := (groupKeys targets Spot.PostalCode).foldl (fun acc k =>
    let group := groupOf targets Spot.PostalCode k
    if group.length ≠ 0 && group.all (fun s => decide (s.ID ∈ visited)) then
      pushId acc (makePostalId k)
    else acc) u1
  let u3 := (groupKeys targets Spot.Category).foldl (fun acc k =>
    let group := groupOf targets Spot.Category k
    if group.length ≠ 0 && group.all (fun s => decide (s.ID ∈ visited)) then
      pushId acc (makeCategoryId k)
    else acc) u2
  u3

/-- The three scoring sets of the claims, as membership growth between an
input snapshot and an output snapshot. -/
def setsGrow (p p2 : GameProgress) : Prop :=
  (∀ x ∈ p.visitedSpotIds, x ∈ p2.visitedSpotIds) ∧
  (∀ x ∈ p.reachedCpIds, x ∈ p2.reachedCpIds) ∧
  (∀ x ∈ p.scoredStationIds.getD [], x ∈ p2.scoredStationIds.getD [])

/-- All-zero metric for concrete runs. -/
def havZero : LatLng → LatLng → Rat := fun _ _ => 0

/-- Origin location. -/
def locO : LatLng := { lat := 0, lng := 0 }

/-- A resolved config used by concrete runs. -/
def cfgW : GameConfig :=
  { durationMin := 60, jrEnabled := true, cpCount := 0, start := locO, goal := locO }

/-- A judge spot used by concrete runs. -/
def spotW : Spot :=
  { ID := "S1", Name := "spot1", Latitude := 0, Longitude := 0, Score := 50 }

/-- A fresh progress snapshot that has already visited `spotW`. -/
def progW : GameProgress :=
  { startedAtMs := 0, config := cfgW, cpSpotIds := [], reachedCpIds := [],
    visitedSpotIds := ["S1"], visitedStationEvents := [], usedStationIds := [],
    score := 50, penalty := 0 }

/-- Snapshot returned by a concrete successful `checkInSpotOrCp` on `progW`. -/
def progW2 : GameProgress :=
  match checkInSpotOrCp havZero 1000 progW locO 5 [spotW] with
  | .ok _ _ q => q
  | .err _ _ => progW

/-- Stations used by concrete runs. -/
def stJ0 : Station :=
  { stationId := "J0", name := "st0", orderIndex := 0, lat := 0, lng := 0, score := some 5 }

/-- Second station. -/
def stJ1 : Station :=
  { stationId := "J1", name := "st1", orderIndex := 1, lat := 0, lng := 1, score := some 7 }

/-- A progress snapshot boarded at `stJ1` with one already-scored station. -/
def progB : GameProgress :=
  { progW with boardedStationId := some "J1", scoredStationIds := some ["X"] }

/-- Snapshot returned by a concrete successful `jrAlight` on `progB`. -/
def progB2 : GameProgress :=
  match jrAlight havZero 1000 progB locO 5 [stJ0, stJ1] with
  | .ok _ _ q => q
  | .err _ _ => progB

/-- Metric for the tie-break scenario: distance 10 from the query point
(latitude 9) to each spot, distance 1 between the two spots. -/
def havC : LatLng → LatLng → Rat := fun p q =>
  if p = q then 0 else if p.lat = 9 ∨ q.lat = 9 then 10 else 1

/-- Query location of the tie-break scenario. -/
def locC : LatLng := { lat := 9, lng := 0 }

/-- Tie-break scenario spot with the smaller ID. -/
def spotCA : Spot := { ID := "A", Name := "ca", Latitude := 0, Longitude := 0, Score := 10 }

/-- Tie-break scenario spot with the larger ID. -/
def spotCB : Spot := { ID := "B", Name := "cb", Latitude := 0, Longitude := 1, Score := 10 }

/-- A progress snapshot that has already visited spot `A`. -/
def progC : GameProgress := { progW with visitedSpotIds := ["A"] }

/-- Progress for the C2 counterexample: a reached-CP entry (`"C"`) that is
not among the configured CPs (`"A"`, `"B"`), and a goal time of exactly 0. -/
def progCP : GameProgress :=
  { progW with startedAtMs := -3600000, cpSpotIds := ["A", "B"], reachedCpIds := ["C"] }

/-- Progress for the C2 witness: two configured CPs, one reached. -/
def progG : GameProgress :=
  { progW with cpSpotIds := ["A", "B"], reachedCpIds := ["B"] }

/-- Metric for the JR ride scenario: only the station at latitude 3 is within
radius of the query location (latitude 50). -/
def havD : LatLng → LatLng → Rat := fun a b =>
  if a.lat = 50 ∧ b.lat = 3 then 0 else 100

/-- Location of the JR ride scenario. -/
def locD : LatLng := { lat := 50, lng := 0 }

/-- JR line stations of the ride scenario (orderIndex 0..3). -/
def stK0 : Station :=
  { stationId := "K0", name := "k0", orderIndex := 0, lat := 0, lng := 0, score := some 1 }

/-- Station 1. -/
def stK1 : Station :=
  { stationId := "K1", name := "k1", orderIndex := 1, lat := 1, lng := 0, score := some 2 }

/-- Station 2. -/
def stK2 : Station :=
  { stationId := "K2", name := "k2", orderIndex := 2, lat := 2, lng := 0, score := some 2 }

/-- Station 3 (the alight station). -/
def stK3 : Station :=
  { stationId := "K3", name := "k3", orderIndex := 3, lat := 3, lng := 0, score := some 4 }

/-- The ride scenario's station master list. -/
def stationsD : List Station := [stK0, stK1, stK2, stK3]

/-- A progress snapshot boarded at `K0` with nothing scored yet. -/
def progD : GameProgress := { progW with boardedStationId := some "K0" }

/-- A spot record whose ID duplicates another pool entry. -/
def dupSpot : Spot := { ID := "A", Name := "dup", Latitude := 0, Longitude := 0, Score := 1 }

/-- Config drawing a single checkpoint. -/
def cfgW1 : GameConfig := { cfgW with cpCount := 1 }

/-- Claim C1. `calcPenalty` behaviour: zero inside the grace window
`[plannedEnd − 15 min, plannedEnd]`, and outside the window the whole
minutes — seconds truncated down, characterised by
`m*60000 ≤ diff < (m+1)*60000` — of the distance to the nearest window
edge; in particular 0 at exactly `plannedEnd` and 1 at `plannedEnd + 90 s`. -/
theorem calcPenalty_spec (s d g : Int) :
    (s + d * 60000 - 900000 ≤ g ∧ g ≤ s + d * 60000 → calcPenalty s d g = 0) ∧
    (g < s + d * 60000 - 900000 →
      calcPenalty s d g * 60000 ≤ (s + d * 60000 - 900000) - g ∧
      (s + d * 60000 - 900000) - g < (calcPenalty s d g + 1) * 60000) ∧
    (s + d * 60000 < g →
      calcPenalty s d g * 60000 ≤ g - (s + d * 60000) ∧
      g - (s + d * 60000) < (calcPenalty s d g + 1) * 60000) ∧
    calcPenalty s d (s + d * 60000) = 0 ∧
    calcPenalty s d (s + d * 60000 + 90000) = 1 := by
  have h60 : (0:Int) < 60000 := by norm_num
  have hfd : ∀ a : Int, Int.fdiv a 60000 * 60000 ≤ a ∧ a < (Int.fdiv a 60000 + 1) * 60000 := by
    intro a
    constructor
    · rw [Int.fdiv_eq_ediv _ (by norm_num)]
      exact Int.ediv_mul_le _ (by norm_num)
    · exact Int.lt_fdiv_add_one_mul_self a h60
  unfold calcPenalty floorMinutesFromMs
  simp only [show (15:Int) * 60000 = 900000 from by norm_num]
  refine ⟨?_, ?_, ?_, ?_, ?_⟩
  · intro ⟨h1, h2⟩
    rw [if_neg (by omega), if_neg (by omega)]
  · intro h
    rw [if_pos (by omega)]
    have := hfd (s + d * 60000 - 900000 - g)
    omega
  · intro h
    rw [if_neg (by omega), if_pos (by omega)]
    have := hfd (g - (s + d * 60000))
    omega
  · rw [if_neg (by omega), if_neg (by omega)]
  · rw [if_neg (by omega), if_pos (by omega)]
    have e : s + d * 60000 + 90000 - (s + d * 60000) = 90000 := by ring
    rw [e]
    decide

/-- Claim C1 witness. Concrete run: start 0, duration 180 min, so
`plannedEnd = 10 800 000 ms`; penalty is 0 at `plannedEnd`, 1 at
`plannedEnd + 90 s`, and 5 whole minutes when goaling 5 min before the
early threshold. -/
theorem calcPenalty_spec_witness :
    calcPenalty 0 180 10800000 = 0 ∧
    calcPenalty 0 180 10890000 = 1 ∧
    calcPenalty 0 180 9600000 * 60000 ≤ 9900000 - 9600000 ∧
    9900000 - 9600000 < (calcPenalty 0 180 9600000 + 1) * 60000 := by
  refine ⟨?_, ?_, ?_, ?_⟩
  · exact (calcPenalty_spec 0 180 10800000).1 (by norm_num)
  · have h := (calcPenalty_spec 0 180 10890000).2.2.1 (by norm_num)
    have h1 := h.1
    have h2 := h.2
    omega
  · exact ((calcPenalty_spec 0 180 9600000).2.1 (by norm_num)).1
  · exact ((calcPenalty_spec 0 180 9600000).2.1 (by norm_num)).2

/-- Membership in the `Set`-builder fold. -/
theorem mem_foldl_dedup (l : List String) : ∀ (acc : List String) (x : String),
    (x ∈ l.foldl (fun acc x => if x ∈ acc then acc else acc ++ [x]) acc) ↔ x ∈ acc ∨ x ∈ l := by
  induction l with
  | nil => simp
  | cons y ys ih =>
    intro acc x
    simp only [List.foldl_cons]
    rw [ih]
    by_cases h : y ∈ acc
    · simp only [if_pos h, List.mem_cons]
      constructor
      · tauto
      · rintro (hx | hx | hx) <;> subst_eqs <;> tauto
    · simp only [if_neg h, List.mem_append, List.mem_cons, List.mem_singleton]
      tauto

/-- Fact: `dedupKeepFirst` preserves membership. -/
theorem mem_dedupKeepFirst (x : String) (l : List String) :
    x ∈ dedupKeepFirst l ↔ x ∈ l := by
  unfold dedupKeepFirst
  rw [mem_foldl_dedup]
  simp

/-- Fact: `setAdd` membership. -/
theorem mem_setAdd (l : List String) (y x : String) :
    x ∈ setAdd l y ↔ x ∈ l ∨ x = y := by
  unfold setAdd
  by_cases h : y ∈ l
  · simp only [if_pos h]
    constructor
    · tauto
    · rintro (hx | rfl) <;> assumption
  · simp [if_neg h]

/-- The station-scoring fold of `jrAlight` never removes an ID from the
`scored` set. -/
theorem mem_scoredFold (ride : List Station) : ∀ (st0 : List String × Int) (x : String),
    x ∈ st0.1 →
    x ∈ (ride.foldl (fun st s =>
      if s.stationId ∈ st.1 then st
      else (st.1 ++ [s.stationId], st.2 + scoreOf s)) st0).1 := by
  induction ride with
  | nil => intro st0 x hx; simpa using hx
  | cons s rest ih =>
    intro st0 x hx
    simp only [List.foldl_cons]
    by_cases h : s.stationId ∈ st0.1
    · rw [if_pos h]; exact ih st0 x hx
    · rw [if_neg h]
      exact ih _ x (by simp [hx])

/-- Claim C5. Monotonicity: on every successful transition of the four engine
operations, `visitedSpotIds`, `reachedCpIds` and `scoredStationIds` of the
returned snapshot are supersets of the input's sets — no element is ever
removed. -/
theorem engine_sets_monotone (hav : LatLng → LatLng → Rat) (t : Int) (p : GameProgress)
    (loc : LatLng) (acc : Rat) (judgeSpots : List Spot) (stations : List Station)
    (p2 : GameProgress) :
    ((∃ k m, checkInSpotOrCp hav t p loc acc judgeSpots = .ok k m p2) → setsGrow p p2) ∧
    ((∃ k m, jrBoard hav t p loc acc stations = .ok k m p2) → setsGrow p p2) ∧
    ((∃ k m, jrAlight hav t p loc acc stations = .ok k m p2) → setsGrow p p2) ∧
    ((∃ k m, goalCheckIn hav t p loc acc = .ok k m p2) → setsGrow p p2) := by
  refine ⟨?_, ?_, ?_, ?_⟩
  · rintro ⟨k, m, h⟩
    unfold checkInSpotOrCp at h
    split at h
    · cases h
    · split at h
      · cases h
      · split at h
        · cases h
        · rename_i cand heq
          dsimp only at h
          split at h
          · cases h
          · cases h
            refine ⟨?_, ?_, ?_⟩
            · intro x hx
              dsimp only
              rw [mem_setAdd, mem_dedupKeepFirst]
              exact Or.inl hx
            · intro x hx
              dsimp only
              split
              · rw [mem_setAdd, mem_dedupKeepFirst]; exact Or.inl hx
              · rw [mem_dedupKeepFirst]; exact hx
            · intro x hx; exact hx
  · rintro ⟨k, m, h⟩
    unfold jrBoard at h
    split at h
    · cases h
    · split at h
      · cases h
      · split at h
        · cases h
        · split at h
          · cases h
          · split at h
            · cases h
            · split at h
              · cases h
              · cases h
                exact ⟨fun x hx => hx, fun x hx => hx, fun x hx => hx⟩
  · rintro ⟨k, m, h⟩
    unfold jrAlight at h
    split at h
    · cases h
    · split at h
      · cases h
      · split at h
        · cases h
        · split at h
          · cases h
          · split at h
            · cases h
            · dsimp only at h
              split at h
              · cases h
              · split at h
                · cases h
                · split at h
                  · cases h
                  · cases h
                    refine ⟨fun x hx => hx, fun x hx => hx, ?_⟩
                    intro x hx
                    simp only [Option.getD_some]
                    exact mem_scoredFold _ _ x (by rw [mem_dedupKeepFirst]; exact hx)
  · rintro ⟨k, m, h⟩
    unfold goalCheckIn at h
    split at h
    · cases h
    · split at h
      · cases h
      · split at h
        · cases h
        · cases h
          exact ⟨fun x hx => hx, fun x hx => hx, fun x hx => hx⟩


/-- Failure codes that `jrAlight` can produce. -/
theorem jrAlight_err_code (hav : LatLng → LatLng → Rat) (t : Int) (p : GameProgress)
    (loc : LatLng) (acc : Rat) (stations : List Station) (c m : String)
    (h : jrAlight hav t p loc acc stations = .err c m) :
    c ∈ (["GAME_ENDED", "ACCURACY_TOO_BAD", "JR_DISABLED", "COOLDOWN", "NOT_BOARDED",
          "NO_STATION", "SAME_STATION", "BOARD_STATION_UNKNOWN"] : List String) := by
  unfold jrAlight at h
  split at h
  · cases h; decide
  · split at h
    · cases h; decide
    · split at h
      · cases h; decide
      · split at h
        · cases h; decide
        · split at h
          · cases h; decide
          · dsimp only at h
            split at h
            · cases h; decide
            · split at h
              · cases h; decide
              · split at h
                · cases h; decide
                · cases h

/-- Fields of the input snapshot that a successful `jrAlight` copies through
unchanged. -/
theorem jrAlight_ok_fields (hav : LatLng → LatLng → Rat) (t : Int) (p : GameProgress)
    (loc : LatLng) (acc : Rat) (stations : List Station) (k : CheckInKind) (m : String)
    (p2 : GameProgress) (h : jrAlight hav t p loc acc stations = .ok k m p2) :
    p2.startedAtMs = p.startedAtMs ∧ p2.config = p.config ∧ p2.cpSpotIds = p.cpSpotIds := by
  unfold jrAlight at h
  split at h
  · cases h
  · split at h
    · cases h
    · split at h
      · cases h
      · split at h
        · cases h
        · split at h
          · cases h
          · dsimp only at h
            split at h
            · cases h
            · split at h
              · cases h
              · split at h
                · cases h
                · cases h
                  exact ⟨rfl, rfl, rfl⟩

/-- Claim C4. Every call of the four engine operations returns either a failure
carrying one of the documented codes and no snapshot, or a success carrying a
snapshot produced by structural copy of the input (untouched fields
preserved); the functions are pure, so the input snapshot itself is never
modified. -/
theorem engine_result_taxonomy (hav : LatLng → LatLng → Rat) (t : Int) (p : GameProgress)
    (loc : LatLng) (acc : Rat) (judgeSpots : List Spot) (stations : List Station) :
    ((∃ c m, checkInSpotOrCp hav t p loc acc judgeSpots = .err c m ∧
        c ∈ (["GAME_ENDED", "ACCURACY_TOO_BAD", "NO_SPOT", "IN_TRAIN"] : List String)) ∨
      (∃ k m p2, checkInSpotOrCp hav t p loc acc judgeSpots = .ok k m p2 ∧
        p2.startedAtMs = p.startedAtMs ∧ p2.config = p.config ∧ p2.cpSpotIds = p.cpSpotIds)) ∧
    ((∃ c m, jrBoard hav t p loc acc stations = .err c m ∧
        c ∈ (["GAME_ENDED", "ACCURACY_TOO_BAD", "JR_DISABLED", "COOLDOWN",
              "ALREADY_BOARDED", "NO_STATION"] : List String)) ∨
      (∃ k m p2, jrBoard hav t p loc acc stations = .ok k m p2 ∧
        p2.startedAtMs = p.startedAtMs ∧ p2.config = p.config ∧ p2.cpSpotIds = p.cpSpotIds)) ∧
    ((∃ c m, jrAlight hav t p loc acc stations = .err c m ∧
        c ∈ (["GAME_ENDED", "ACCURACY_TOO_BAD", "JR_DISABLED", "COOLDOWN", "NOT_BOARDED",
              "NO_STATION", "SAME_STATION", "BOARD_STATION_UNKNOWN"] : List String)) ∨
      (∃ k m p2, jrAlight hav t p loc acc stations = .ok k m p2 ∧
        p2.startedAtMs = p.startedAtMs ∧ p2.config = p.config ∧ p2.cpSpotIds = p.cpSpotIds)) ∧
    ((∃ c m, goalCheckIn hav t p loc acc = .err c m ∧
        c ∈ (["GAME_ENDED", "ACCURACY_TOO_BAD", "NOT_AT_GOAL"] : List String)) ∨
      (∃ k m p2, goalCheckIn hav t p loc acc = .ok k m p2 ∧
        p2.startedAtMs = p.startedAtMs ∧ p2.config = p.config ∧ p2.cpSpotIds = p.cpSpotIds)) := by
  refine ⟨?_, ?_, ?_, ?_⟩
  · unfold checkInSpotOrCp
    split
    · exact Or.inl ⟨_, _, rfl, by decide⟩
    · split
      · exact Or.inl ⟨_, _, rfl, by decide⟩
      · split
        · exact Or.inl ⟨_, _, rfl, by decide⟩
        · dsimp only
          split
          · exact Or.inl ⟨_, _, rfl, by decide⟩
          · exact Or.inr ⟨_, _, _, rfl, rfl, rfl, rfl⟩
  · unfold jrBoard
    split
    · exact Or.inl ⟨_, _, rfl, by decide⟩
    · split
      · exact Or.inl ⟨_, _, rfl, by decide⟩
      · split
        · exact Or.inl ⟨_, _, rfl, by decide⟩
        · split
          · exact Or.inl ⟨_, _, rfl, by decide⟩
          · split
            · exact Or.inl ⟨_, _, rfl, by decide⟩
            · split
              · exact Or.inl ⟨_, _, rfl, by decide⟩
              · exact Or.inr ⟨_, _, _, rfl, rfl, rfl, rfl⟩
  · rcases hres : jrAlight hav t p loc acc stations with ⟨k, m, p2⟩ | ⟨c, m⟩
    · exact Or.inr ⟨k, m, p2, rfl, jrAlight_ok_fields hav t p loc acc stations k m p2 hres⟩
    · exact Or.inl ⟨c, m, rfl, jrAlight_err_code hav t p loc acc stations c m hres⟩
  · unfold goalCheckIn
    split
    · exact Or.inl ⟨_, _, rfl, by decide⟩
    · split
      · exact Or.inl ⟨_, _, rfl, by decide⟩
      · split
        · exact Or.inl ⟨_, _, rfl, by decide⟩
        · exact Or.inr ⟨_, _, _, rfl, rfl, rfl, rfl⟩

/-- The first-minimum fold only improves: an element that does not strictly
precede the accumulator never strictly precedes the fold's result. -/
theorem foldl_min_improve {α : Type} (before : α → α → Bool)
    (htrans : ∀ a b c, before a b = true → before b c = true → before a c = true) :
    ∀ (cs : List α) (c0 y : α), before y c0 = false →
      before y (cs.foldl (fun best x => if before x best then x else best) c0) = false := by
  intro cs
  induction cs with
  | nil => intro c0 y h; simpa using h
  | cons x rest ih =>
    intro c0 y h
    simp only [List.foldl_cons]
    by_cases hx : before x c0 = true
    · rw [if_pos hx]
      apply ih
      by_contra hyx
      simp only [Bool.not_eq_false] at hyx
      have := htrans y x c0 hyx hx
      simp [h] at this
    · rw [if_neg hx]
      exact ih c0 y h

/-- The first-minimum fold returns an element of the list. -/
theorem foldl_min_mem {α : Type} (before : α → α → Bool) :
    ∀ (cs : List α) (c0 : α),
      (cs.foldl (fun best x => if before x best then x else best) c0) ∈ c0 :: cs := by
  intro cs
  induction cs with
  | nil => intro c0; simp
  | cons x rest ih =>
    intro c0
    simp only [List.foldl_cons]
    by_cases hx : before x c0 = true
    · rw [if_pos hx]
      have h := ih x
      simp only [List.mem_cons] at h ⊢
      tauto
    · rw [if_neg hx]
      have h := ih c0
      simp only [List.mem_cons] at h ⊢
      tauto

/-- No listed element strictly precedes the first-minimum fold's result. -/
theorem foldl_min_notBefore {α : Type} (before : α → α → Bool)
    (htrans : ∀ a b c, before a b = true → before b c = true → before a c = true)
    (hirrefl : ∀ a, before a a = false) :
    ∀ (cs : List α) (c0 y : α), y ∈ c0 :: cs →
      before y (cs.foldl (fun best x => if before x best then x else best) c0) = false := by
  intro cs
  induction cs with
  | nil =>
    intro c0 y hy
    simp only [List.mem_singleton] at hy
    subst hy
    simpa using hirrefl y
  | cons x rest ih =>
    intro c0 y hy
    simp only [List.foldl_cons]
    rcases List.mem_cons.mp hy with rfl | hy'
    · by_cases hx : before x y = true
      · rw [if_pos hx]
        apply foldl_min_improve before htrans
        by_contra hc
        simp only [Bool.not_eq_false] at hc
        have := htrans y x y hc hx
        simp [hirrefl] at this
      · rw [if_neg hx]
        apply foldl_min_improve before htrans
        exact hirrefl y
    · rcases List.mem_cons.mp hy' with rfl | hy''
      · by_cases hx : before y c0 = true
        · rw [if_pos hx]
          apply foldl_min_improve before htrans
          exact hirrefl y
        · rw [if_neg hx]
          apply foldl_min_improve before htrans
          simpa using hx
      · by_cases hx : before x c0 = true
        · rw [if_pos hx]; exact ih x y (List.mem_cons_of_mem _ hy'')
        · rw [if_neg hx]; exact ih c0 y (List.mem_cons_of_mem _ hy'')

/-- Fact: `firstMinBy` returns a listed element that no listed element strictly
precedes (for a transitive, irreflexive comparator). -/
theorem firstMinBy_spec {α : Type} (before : α → α → Bool)
    (htrans : ∀ a b c, before a b = true → before b c = true → before a c = true)
    (hirrefl : ∀ a, before a a = false) (l : List α) (c : α)
    (h : firstMinBy before l = some c) :
    c ∈ l ∧ ∀ y ∈ l, before y c = false := by
  cases l with
  | nil => cases h
  | cons a as =>
    unfold firstMinBy at h
    injection h with h
    subst h
    exact ⟨foldl_min_mem _ as a, fun y hy => foldl_min_notBefore _ htrans hirrefl as a y hy⟩

/-- Normal form of the candidate comparator. -/
theorem candBefore_eq_true_iff (a b : SpotCandidate) :
    candBefore a b = true ↔
      (a.dist < b.dist ∨ (a.dist = b.dist ∧ b.spot.Score < a.spot.Score) ∨
        (a.dist = b.dist ∧ a.spot.Score = b.spot.Score ∧ a.spot.ID < b.spot.ID)) := by
  unfold candBefore
  split_ifs with h1 h2 <;> simp_all <;> simp [strLt]

/-- Transitivity of the candidate comparator. -/
theorem candBefore_trans (a b c : SpotCandidate)
    (hab : candBefore a b = true) (hbc : candBefore b c = true) :
    candBefore a c = true := by
  rw [candBefore_eq_true_iff] at hab hbc ⊢
  rcases hab with h | ⟨e1, h⟩ | ⟨e1, e2, h⟩ <;>
    rcases hbc with h' | ⟨f1, h'⟩ | ⟨f1, f2, h'⟩
  · exact Or.inl (lt_trans h h')
  · exact Or.inl (f1 ▸ h)
  · exact Or.inl (f1 ▸ h)
  · exact Or.inl (e1 ▸ h')
  · exact Or.inr (Or.inl ⟨e1.trans f1, lt_trans h' h⟩)
  · exact Or.inr (Or.inl ⟨e1.trans f1, f2 ▸ h⟩)
  · exact Or.inl (e1 ▸ h')
  · exact Or.inr (Or.inl ⟨e1.trans f1, e2 ▸ h'⟩)
  · exact Or.inr (Or.inr ⟨e1.trans f1, e2.trans f2, lt_trans h h'⟩)

/-- Irreflexivity of the candidate comparator. -/
theorem candBefore_irrefl (a : SpotCandidate) : candBefore a a = false := by
  simp [candBefore, strLt]

/-- Claim C6. Idempotence of spot check-in: whenever candidate selection
(including the dense-cluster substitution) resolves a spot that is already in
`visitedSpotIds`, a successful `checkInSpotOrCp` leaves the score unchanged
and the visited set (as a set) unchanged — the second of two identical
check-ins credits nothing. -/
theorem checkInSpotOrCp_idempotent (hav : LatLng → LatLng → Rat) (t : Int) (p : GameProgress)
    (loc : LatLng) (acc : Rat) (judgeSpots : List Spot) (cand : SpotCandidate)
    (p2 : GameProgress)
    (hpick : pickSpotCandidateWithDenseCluster hav p loc judgeSpots DENSE_SPOT_DISTANCE_M
      = some cand)
    (hvis : cand.spot.ID ∈ p.visitedSpotIds)
    (hok : ∃ k m, checkInSpotOrCp hav t p loc acc judgeSpots = .ok k m p2) :
    p2.score = p.score ∧ (∀ x, x ∈ p2.visitedSpotIds ↔ x ∈ p.visitedSpotIds) := by
  obtain ⟨k, m, h⟩ := hok
  unfold checkInSpotOrCp at h
  split at h
  · cases h
  · split at h
    · cases h
    · rw [hpick] at h
      dsimp only at h
      split at h
      · cases h
      · cases h
        constructor
        · dsimp only
          rw [if_pos (by rw [mem_dedupKeepFirst]; exact hvis)]
          exact add_zero p.score
        · intro x
          dsimp only
          rw [mem_setAdd, mem_dedupKeepFirst]
          constructor
          · rintro (hx | rfl)
            · exact hx
            · exact hvis
          · exact Or.inl

/-- Claim C7 (amended). In base candidate selection
(`pickCandidateSpotWithinRadius`), among the candidates within the check-in
radius, an equidistant candidate with equal score never beats one with a
lexicographically smaller ID: the chosen candidate's ID is minimal within its
(distance, score) tie class. -/
theorem pickCandidate_tiebreak_smallest_id (hav : LatLng → LatLng → Rat) (spots : List Spot)
    (loc : LatLng) (c : SpotCandidate)
    (h : pickCandidateSpotWithinRadius hav spots loc = some c) :
    ∀ s ∈ spots, hav loc { lat := s.Latitude, lng := s.Longitude } ≤ CHECKIN_RADIUS_M →
      hav loc { lat := s.Latitude, lng := s.Longitude } = c.dist →
      s.Score = c.spot.Score → c.spot.ID ≤ s.ID := by
  intro s hs hrad hdist hscore
  obtain ⟨hcmem, hmin⟩ :=
    firstMinBy_spec candBefore candBefore_trans candBefore_irrefl _ c h
  have hy : ({ spot := s, dist := hav loc { lat := s.Latitude, lng := s.Longitude } } :
      SpotCandidate) ∈ listSpotCandidatesWithinRadius hav spots loc := by
    unfold listSpotCandidatesWithinRadius
    rw [List.mem_filter]
    refine ⟨List.mem_map.mpr ⟨s, hs, rfl⟩, ?_⟩
    simpa using hrad
  have hnb := hmin _ hy
  have hnot : ¬ (({ spot := s, dist := hav loc { lat := s.Latitude, lng := s.Longitude } } :
      SpotCandidate).dist < c.dist ∨
      (({ spot := s, dist := hav loc { lat := s.Latitude, lng := s.Longitude } } :
        SpotCandidate).dist = c.dist ∧ c.spot.Score < s.Score) ∨
      (({ spot := s, dist := hav loc { lat := s.Latitude, lng := s.Longitude } } :
        SpotCandidate).dist = c.dist ∧ s.Score = c.spot.Score ∧ s.ID < c.spot.ID)) := by
    rw [← candBefore_eq_true_iff]
    simp [hnb]
  push_neg at hnot
  by_contra hgt
  push_neg at hgt
  exact absurd (hnot.2.2 hdist hscore) (by simpa using hgt)

/-- Claim C5 witness. Concrete successful spot check-in and JR alight preserve
the previously collected IDs. -/
theorem engine_sets_monotone_witness :
    ("S1" ∈ progW2.visitedSpotIds) ∧ ("X" ∈ progB2.scoredStationIds.getD []) := by
  constructor
  · exact ((engine_sets_monotone havZero 1000 progW locO 5 [spotW] [] progW2).1
      ⟨_, _, rfl⟩).1 "S1" (by decide)
  · exact ((engine_sets_monotone havZero 1000 progB locO 5 [] [stJ0, stJ1] progB2).2.2.1
      ⟨.JR_ALIGHT, "降車チェックイン：st0（+12）", by rfl⟩).2.2 "X" (by decide)

/-- Claim C6 witness. Re-checking in at the already-visited `spotW` leaves score
and visited set unchanged. -/
theorem checkInSpotOrCp_idempotent_witness :
    progW2.score = progW.score ∧ (∀ x, x ∈ progW2.visitedSpotIds ↔ x ∈ progW.visitedSpotIds) :=
  checkInSpotOrCp_idempotent havZero 1000 progW locO 5 [spotW]
    { spot := spotW, dist := 0 } progW2 (by decide) (by decide) ⟨_, _, rfl⟩

/-- Fact: `strLt` agrees with the string order. -/
theorem strLt_lt (a b : String) (h : strLt a b = true) : a < b := by
  have hd : a.data < b.data := of_decide_eq_true h
  rw [String.lt_iff_toList_lt]
  simpa [String.toList] using hd

/-- Claim C7 counterexample. Two candidates at equal distance 10 (within the
50 m radius) with equal score, forming a 3 m dense cluster; `A` is already
visited, so the dense-cluster substitution resolves `B` even though `A` has
the lexicographically smaller ID — selection does not always choose the
smaller ID. -/
theorem pick_tiebreak_counterexample :
    pickSpotCandidateWithDenseCluster havC progC locC [spotCA, spotCB] DENSE_SPOT_DISTANCE_M
      = some { spot := spotCB, dist := 10 } ∧
    havC locC { lat := spotCA.Latitude, lng := spotCA.Longitude }
      = havC locC { lat := spotCB.Latitude, lng := spotCB.Longitude } ∧
    havC locC { lat := spotCA.Latitude, lng := spotCA.Longitude } ≤ CHECKIN_RADIUS_M ∧
    spotCA.Score = spotCB.Score ∧ spotCA.ID < spotCB.ID := by
  exact ⟨by decide, by decide, by decide, by decide, strLt_lt _ _ (by decide)⟩

/-- Claim C7 witness. On the same two equidistant equal-score candidates with
no visited spot involved, base selection picks `A`, whose ID is minimal. -/
theorem pickCandidate_tiebreak_smallest_id_witness : spotCA.ID ≤ spotCB.ID :=
  pickCandidate_tiebreak_smallest_id havC [spotCA, spotCB] locC
    { spot := spotCA, dist := 10 } (by decide) spotCB (by decide) (by decide)
    (by decide) (by decide)

/-- Fact: `dedupKeepFirst` is the identity on duplicate-free lists. -/
theorem dedupKeepFirst_eq_self (l : List String) (h : l.Nodup) : dedupKeepFirst l = l := by
  unfold dedupKeepFirst
  suffices H : ∀ (acc : List String), (∀ x ∈ l, x ∉ acc) → l.Nodup →
      l.foldl (fun acc x => if x ∈ acc then acc else acc ++ [x]) acc = acc ++ l by
    simpa using H [] (by simp) h
  clear h
  induction l with
  | nil => intro acc _ _; simp
  | cons y ys ih =>
    intro acc hdisj hnd
    simp only [List.foldl_cons]
    rw [if_neg (hdisj y (by simp))]
    rw [ih (acc ++ [y])]
    · simp
    · intro x hx
      simp only [List.mem_append, List.mem_singleton]
      rintro (hmem | rfl)
      · exact hdisj x (by simp [hx]) hmem
      · exact (List.nodup_cons.mp hnd).1 hx
    · exact (List.nodup_cons.mp hnd).2

/-- Counting the missed checkpoints: under the game's invariants (both ID
lists duplicate-free, every reached CP a configured CP), the code's
`max(0, |cpSpotIds| − |Set(reachedCpIds)|)` equals the number of configured
CP IDs not present in `reachedCpIds`. -/
theorem cp_missing_count (cp reached : List String) (hcp : cp.Nodup) (hr : reached.Nodup)
    (hsub : ∀ x ∈ reached, x ∈ cp) :
    max 0 ((cp.length : Int) - ((dedupKeepFirst reached).length : Int)) =
      ((cp.filter (fun id => id ∉ reached)).length : Int) := by
  rw [dedupKeepFirst_eq_self reached hr]
  have hsplit :
      (cp.filter (fun id => id ∈ reached)).length +
        (cp.filter (fun id => id ∉ reached)).length = cp.length := by
    have h := List.length_eq_length_filter_add (l := cp) (fun id => decide (id ∈ reached))
    have e : (cp.filter (fun id => !decide (id ∈ reached))).length
        = (cp.filter (fun id => id ∉ reached)).length := by simp
    omega
  have hlen : (cp.filter (fun id => id ∈ reached)).length = reached.length := by
    have h1 : (cp.filter (fun id => id ∈ reached)).toFinset = reached.toFinset := by
      ext x
      simp only [List.mem_toFinset, List.mem_filter, decide_eq_true_eq]
      exact ⟨fun hx => hx.2, fun hx => ⟨hsub x hx, hx⟩⟩
    have h2 : (cp.filter (fun id => id ∈ reached)).Nodup := hcp.filter _
    calc (cp.filter (fun id => id ∈ reached)).length
        = (cp.filter (fun id => id ∈ reached)).toFinset.card := (List.toFinset_card_of_nodup h2).symm
      _ = reached.toFinset.card := by rw [h1]
      _ = reached.length := List.toFinset_card_of_nodup hr
  omega

/-- Claim C2 (amended). An accepted goal check-in (goal time nonzero, accuracy
and distance within limits, CP bookkeeping satisfying the game invariants —
duplicate-free `cpSpotIds`/`reachedCpIds` with every reached CP configured)
sets a penalty of the time penalty plus 100 per missing checkpoint, deducts
it from the score, marks the game ended with reason `GOAL`, and afterwards
every check-in operation on the returned snapshot fails with `GAME_ENDED`. -/
theorem goalCheckIn_spec (hav : LatLng → LatLng → Rat) (t : Int) (p : GameProgress)
    (loc : LatLng) (accuracy : Rat)
    (hend : p.endedAtMs = none)
    (hacc : accuracy ≤ MAX_ACCURACY_M)
    (hdist : hav loc p.config.goal ≤ CHECKIN_RADIUS_M)
    (ht : t ≠ 0)
    (hcp : p.cpSpotIds.Nodup)
    (hr : p.reachedCpIds.Nodup)
    (hsub : ∀ x ∈ p.reachedCpIds, x ∈ p.cpSpotIds) :
    ∃ m p2, goalCheckIn hav t p loc accuracy = .ok .GOAL m p2 ∧
      p2.penalty = calcPenalty p.startedAtMs p.config.durationMin t +
        100 * ((p.cpSpotIds.filter (fun id => id ∉ p.reachedCpIds)).length : Int) ∧
      p2.score = p.score - p2.penalty ∧
      p2.endedAtMs = some t ∧ p2.endReason = some .GOAL ∧
      (∀ hav2 t2 loc2 acc2 spots2, ∃ m2,
        checkInSpotOrCp hav2 t2 p2 loc2 acc2 spots2 = .err "GAME_ENDED" m2) ∧
      (∀ hav2 t2 loc2 acc2 stations2, ∃ m2,
        jrBoard hav2 t2 p2 loc2 acc2 stations2 = .err "GAME_ENDED" m2) ∧
      (∀ hav2 t2 loc2 acc2 stations2, ∃ m2,
        jrAlight hav2 t2 p2 loc2 acc2 stations2 = .err "GAME_ENDED" m2) ∧
      (∀ hav2 t2 loc2 acc2, ∃ m2,
        goalCheckIn hav2 t2 p2 loc2 acc2 = .err "GAME_ENDED" m2) := by
  have hcnt := cp_missing_count p.cpSpotIds p.reachedCpIds hcp hr hsub
  unfold goalCheckIn
  rw [if_neg (by rw [hend]; simp [truthyI])]
  rw [if_neg (not_lt.mpr hacc)]
  rw [if_neg (not_lt.mpr hdist)]
  refine ⟨_, _, rfl, ?_, ?_, rfl, rfl, ?_, ?_, ?_, ?_⟩
  · dsimp only
    rw [show max 0 ((p.cpSpotIds.length : Int) - ((dedupKeepFirst p.reachedCpIds).length : Int))
          * 100 = 100 * ((p.cpSpotIds.filter (fun id => id ∉ p.reachedCpIds)).length : Int) from by
      rw [hcnt]; ring]
  · rfl
  · intro hav2 t2 loc2 acc2 spots2
    refine ⟨"ゲームは終了しています。", ?_⟩
    unfold checkInSpotOrCp
    rw [if_pos (by simp [truthyI, ht])]
  · intro hav2 t2 loc2 acc2 stations2
    refine ⟨"ゲームは終了しています。", ?_⟩
    unfold jrBoard
    rw [if_pos (by simp [truthyI, ht])]
  · intro hav2 t2 loc2 acc2 stations2
    refine ⟨"ゲームは終了しています。", ?_⟩
    unfold jrAlight
    rw [if_pos (by simp [truthyI, ht])]
  · intro hav2 t2 loc2 acc2
    refine ⟨"ゲームは終了しています。", ?_⟩
    rw [if_pos (by simp [truthyI, ht])]

/-- Claim C2 counterexample.  At goal time 0 (inside the grace window, so the
time penalty is 0) with `cpSpotIds = ["A","B"]` and `reachedCpIds = ["C"]`:
the code's penalty is `max(0, 2−1)·100 = 100`, whereas the claim's "100 times
the number of configured checkpoint IDs not present in `reachedCpIds`" is
200; moreover the returned snapshot has `endedAtMs = 0`, which the
truthiness guard treats as unset, so a subsequent check-in does *not* fail
with `GAME_ENDED` (here it reaches the `NO_SPOT` check instead). -/
theorem goalCheckIn_counterexample :
    (match goalCheckIn havZero 0 progCP locO 5 with
      | .ok _ _ q => q.penalty
      | .err _ _ => 0) = 100 ∧
    (100 : Int) * ((progCP.cpSpotIds.filter (fun id => id ∉ progCP.reachedCpIds)).length : Int)
      = 200 ∧
    (match goalCheckIn havZero 0 progCP locO 5 with
      | .ok _ _ q => checkInSpotOrCp havZero 1 q locO 5 []
      | .err c m => .err c m) = .err "NO_SPOT" "50m以内にスポットが見つかりません。" := by
  refine ⟨by decide, by decide, by decide⟩

/-- Claim C2 witness. Goal check-in at exactly `plannedEnd` with one of two
CPs reached: penalty 100, score drops by 100, game ends at the goal time. -/
theorem goalCheckIn_spec_witness :
    ∃ m p2, goalCheckIn havZero 3600000 progG locO 5 = .ok .GOAL m p2 ∧
      p2.penalty = 100 ∧ p2.score = progG.score - p2.penalty ∧
      p2.endedAtMs = some 3600000 := by
  obtain ⟨m, p2, heq, hpen, hscore, hend, -⟩ :=
    goalCheckIn_spec havZero 3600000 progG locO 5 rfl (by decide) (by decide) (by decide)
      (by decide) (by decide) (by decide)
  refine ⟨m, p2, heq, ?_, hscore, hend⟩
  rw [hpen]
  decide

/-- Membership in `stationsBetween`: exactly the stations found by the
order-index lookup at an index strictly between the boarded and alight
indices (on either side, matching the ±1 walk direction). -/
theorem mem_stationsBetween (board alight : Station) (byOrder : Int → Option Station)
    (st : Station) :
    st ∈ stationsBetween board alight byOrder ↔
      ∃ i, byOrder i = some st ∧
        ((board.orderIndex < i ∧ i < alight.orderIndex) ∨
         (alight.orderIndex < i ∧ i < board.orderIndex)) := by
  unfold stationsBetween
  by_cases h : board.orderIndex < alight.orderIndex
  · rw [if_pos h]
    rw [List.mem_filterMap]
    constructor
    · rintro ⟨a, ha, hlook⟩
      rw [List.mem_map] at ha
      obtain ⟨k, hk, rfl⟩ := ha
      rw [List.mem_range] at hk
      exact ⟨board.orderIndex + 1 + (k : Int), hlook, Or.inl ⟨by omega, by omega⟩⟩
    · rintro ⟨i, hlook, hbounds⟩
      rcases hbounds with ⟨h1, h2⟩ | ⟨h1, h2⟩
      · refine ⟨i, ?_, hlook⟩
        rw [List.mem_map]
        refine ⟨(i - board.orderIndex - 1).toNat, ?_, by omega⟩
        rw [List.mem_range]
        omega
      · exfalso; omega
  · rw [if_neg h]
    rw [List.mem_filterMap]
    constructor
    · rintro ⟨a, ha, hlook⟩
      rw [List.mem_map] at ha
      obtain ⟨k, hk, rfl⟩ := ha
      rw [List.mem_range] at hk
      exact ⟨board.orderIndex - 1 - (k : Int), hlook, Or.inr ⟨by omega, by omega⟩⟩
    · rintro ⟨i, hlook, hbounds⟩
      rcases hbounds with ⟨h1, h2⟩ | ⟨h1, h2⟩
      · exfalso; omega
      · refine ⟨i, ?_, hlook⟩
        rw [List.mem_map]
        refine ⟨(board.orderIndex - 1 - i).toNat, ?_, by omega⟩
        rw [List.mem_range]
        omega

/-- The station-scoring fold of `jrAlight`, characterised: starting from a
`scored` set `base` and accumulator `k`, over ride stations with pairwise
distinct IDs it adds exactly the scores of the stations whose ID is not in
`base`, and the final `scored` set holds exactly `base` plus the ride IDs. -/
theorem scoredFold_spec (ride : List Station) :
    ∀ (base : List String) (k : Int),
    (ride.map (fun s => s.stationId)).Nodup →
    ((ride.foldl (fun (st : List String × Int) s =>
        if s.stationId ∈ st.1 then st
        else (st.1 ++ [s.stationId], st.2 + scoreOf s)) (base, k)).2
      = k + ((ride.filter (fun st => st.stationId ∉ base)).map scoreOf).sum ∧
    (∀ x, x ∈ (ride.foldl (fun (st : List String × Int) s =>
        if s.stationId ∈ st.1 then st
        else (st.1 ++ [s.stationId], st.2 + scoreOf s)) (base, k)).1 ↔
      x ∈ base ∨ x ∈ ride.map (fun s => s.stationId))) := by
  induction ride with
  | nil =>
    intro base k _
    constructor
    · simp
    · intro x; simp
  | cons s rest ih =>
    intro base k hnd
    rw [List.map_cons, List.nodup_cons] at hnd
    obtain ⟨hs, hnd'⟩ := hnd
    simp only [List.foldl_cons]
    by_cases hmem : s.stationId ∈ base
    · rw [if_pos hmem]
      obtain ⟨ih1, ih2⟩ := ih base k hnd'
      constructor
      · rw [ih1]
        congr 2
        rw [List.filter_cons, if_neg (by simp [hmem])]
      · intro x
        rw [ih2]
        simp only [List.map_cons, List.mem_cons]
        constructor
        · rintro (hx | hx) <;> tauto
        · rintro (hx | rfl | hx)
          · tauto
          · exact Or.inl hmem
          · tauto
    · rw [if_neg hmem]
      obtain ⟨ih1, ih2⟩ := ih (base ++ [s.stationId]) (k + scoreOf s) hnd'
      constructor
      · rw [ih1]
        rw [List.filter_cons, if_pos (by simp [hmem])]
        rw [List.map_cons, List.sum_cons]
        have hfeq : rest.filter (fun st => st.stationId ∉ base ++ [s.stationId])
            = rest.filter (fun st => st.stationId ∉ base) := by
          apply List.filter_congr
          intro st hst
          have hne : st.stationId ≠ s.stationId := by
            intro he
            exact hs (by rw [← he]; exact List.mem_map.mpr ⟨st, hst, rfl⟩)
          simp [List.mem_append, hne]
        rw [hfeq]; ring
      · intro x
        rw [ih2]
        simp only [List.mem_append, List.mem_singleton, List.map_cons, List.mem_cons]
        tauto

/-- Claim C3. Every successful `jrAlight` (all guard conditions pass, a station
resolves within radius, differing from the boarded station, which resolves in
the master list; ride IDs pairwise distinct): the score increases by the sum
of the point values (`score ?? 0`) of exactly the ride stations — boarded,
strictly-between by `orderIndex`, and alight — whose IDs are not yet in
`scoredStationIds`; those IDs are all added to `scoredStationIds`; a ride
over only already-scored stations adds 0; and the strictly-between set
is characterised by the orderIndex interval. -/
theorem jrAlight_ride_scoring (hav : LatLng → LatLng → Rat) (t : Int) (p : GameProgress)
    (loc : LatLng) (accuracy : Rat) (stations : List Station) (bid : String)
    (cand : StationCandidate) (board : Station)
    (hend : truthyI p.endedAtMs = false)
    (hacc : accuracy ≤ MAX_ACCURACY_M)
    (hjr : p.config.jrEnabled = true)
    (hcd : cooldownActive t p.cooldownUntilMs = false)
    (hb : p.boardedStationId = some bid)
    (hbne : bid ≠ "")
    (hpick : pickStationWithinRadius hav stations loc = some cand)
    (hne : cand.st.stationId ≠ bid)
    (hboard : byIdGet stations bid = some board)
    (hnodup : ((board :: stationsBetween board cand.st (byOrderGet stations) ++ [cand.st]).map
        (fun s => s.stationId)).Nodup) :
    ∃ m p2, jrAlight hav t p loc accuracy stations = .ok .JR_ALIGHT m p2 ∧
      p2.score = p.score +
        (((board :: stationsBetween board cand.st (byOrderGet stations) ++ [cand.st]).filter
            (fun st => st.stationId ∉ p.scoredStationIds.getD [])).map scoreOf).sum ∧
      (∀ x, x ∈ p2.scoredStationIds.getD [] ↔
        x ∈ p.scoredStationIds.getD [] ∨
        x ∈ (board :: stationsBetween board cand.st (byOrderGet stations) ++ [cand.st]).map
          (fun s => s.stationId)) ∧
      ((∀ st ∈ board :: stationsBetween board cand.st (byOrderGet stations) ++ [cand.st],
          st.stationId ∈ p.scoredStationIds.getD []) → p2.score = p.score) ∧
      (∀ st, st ∈ stationsBetween board cand.st (byOrderGet stations) ↔
        ∃ i, byOrderGet stations i = some st ∧
          ((board.orderIndex < i ∧ i < cand.st.orderIndex) ∨
           (cand.st.orderIndex < i ∧ i < board.orderIndex))) := by
  unfold jrAlight
  rw [hb]
  rw [if_neg (by rw [hend]; simp)]
  rw [if_neg (not_lt.mpr hacc)]
  rw [if_neg (by rw [hjr]; simp)]
  rw [if_neg (by rw [hcd]; simp)]
  rw [if_neg (by simp [truthyS, hbne])]
  simp only [Option.getD_some]
  rw [hpick]
  dsimp only
  rw [if_neg hne, hboard]
  dsimp only
  set ride := board :: stationsBetween board cand.st (byOrderGet stations) ++ [cand.st] with hride
  have hfold := scoredFold_spec ride (dedupKeepFirst (p.scoredStationIds.getD [])) 0 hnodup
  have hfilter : ride.filter
      (fun st => st.stationId ∉ dedupKeepFirst (p.scoredStationIds.getD []))
      = ride.filter (fun st => st.stationId ∉ p.scoredStationIds.getD []) := by
    apply List.filter_congr
    intro st _
    simp [mem_dedupKeepFirst]
  refine ⟨_, _, rfl, ?_, ?_, ?_, ?_⟩
  · dsimp only
    rw [hfold.1, hfilter]
    ring
  · intro x
    dsimp only
    rw [Option.getD_some]
    rw [hfold.2 x, mem_dedupKeepFirst]
  · intro hall
    dsimp only
    rw [hfold.1, hfilter]
    have : ride.filter (fun st => st.stationId ∉ p.scoredStationIds.getD []) = [] := by
      rw [List.filter_eq_nil]
      intro st hst
      simp [hall st hst]
    rw [this]
    simp
  · intro st
    exact mem_stationsBetween board cand.st (byOrderGet stations) st

/-- Claim C3 witness. Riding from orderIndex 0 to 3 scores the boarded, both
intermediate and the alight stations once: 1+2+2+4 = 9 points. -/
theorem jrAlight_ride_scoring_witness :
    ∃ m p2, jrAlight havD 1000 progD locD 5 stationsD = .ok .JR_ALIGHT m p2 ∧
      p2.score = progD.score + 9 := by
  obtain ⟨m, p2, heq, hscore, -⟩ :=
    jrAlight_ride_scoring havD 1000 progD locD 5 stationsD "K0"
      { st := stK3, d := 0 } stK0 rfl (by decide) rfl rfl rfl (by decide) (by decide)
      (by decide) (by decide) (by decide)
  refine ⟨m, p2, heq, ?_⟩
  rw [hscore]
  decide

/-- Under `Nodup`, the element removed by `eraseIdx` no longer occurs. -/
theorem get_not_mem_eraseIdx {α : Type} (l : List α) (i : Nat) (h : i < l.length)
    (hnd : l.Nodup) : l.get ⟨i, h⟩ ∉ l.eraseIdx i := by
  intro hmem
  rw [List.mem_iff_getElem] at hmem
  obtain ⟨j, hj, hget⟩ := hmem
  rw [List.get_eq_getElem] at hget
  by_cases hji : j < i
  · rw [List.getElem_eraseIdx_of_lt l i j hj hji] at hget
    have h2 := (hnd.getElem_inj_iff).mp hget
    simp at h2
    omega
  · rw [List.getElem_eraseIdx_of_ge l i j hj (Nat.le_of_not_lt hji)] at hget
    have h2 := (hnd.getElem_inj_iff).mp hget
    simp at h2
    omega

/-- Every ID drawn by the splice loop comes from the input list. -/
theorem drawLoop_subset (r : Nat → Nat) :
    ∀ (k step : Nat) (ids : List String), ∀ x ∈ drawLoop r k step ids, x ∈ ids := by
  intro k
  induction k with
  | zero => intro step ids x hx; simp [drawLoop] at hx
  | succ k ih =>
    intro step ids x hx
    cases ids with
    | nil => simp [drawLoop] at hx
    | cons y ys =>
      simp only [drawLoop] at hx
      rcases List.mem_cons.mp hx with rfl | hx'
      · exact List.get_mem _ _ _
      · exact List.mem_of_mem_eraseIdx (ih (step + 1) _ x hx')

/-- The splice loop draws `min k |ids|` entries. -/
theorem drawLoop_length (r : Nat → Nat) :
    ∀ (k step : Nat) (ids : List String),
      (drawLoop r k step ids).length = min k ids.length := by
  intro k
  induction k with
  | zero => intro step ids; simp [drawLoop]
  | succ k ih =>
    intro step ids
    cases ids with
    | nil => simp [drawLoop]
    | cons y ys =>
      simp only [drawLoop]
      rw [List.length_cons, ih]
      have hlt : r step % (y :: ys).length < (y :: ys).length :=
        Nat.mod_lt _ (Nat.succ_pos _)
      rw [List.length_eraseIdx_of_lt hlt]
      have hl : (y :: ys).length = ys.length + 1 := List.length_cons y ys
      omega

/-- Drawing without replacement from a duplicate-free list yields a
duplicate-free result. -/
theorem drawLoop_nodup (r : Nat → Nat) :
    ∀ (k step : Nat) (ids : List String), ids.Nodup → (drawLoop r k step ids).Nodup := by
  intro k
  induction k with
  | zero => intro _ ids _; simp [drawLoop]
  | succ k ih =>
    intro step ids hnd
    cases ids with
    | nil => simp [drawLoop]
    | cons y ys =>
      simp only [drawLoop]
      rw [List.nodup_cons]
      refine ⟨?_, ih _ _ (hnd.eraseIdx _)⟩
      intro hmem
      exact get_not_mem_eraseIdx _ _ _ hnd (drawLoop_subset r k (step + 1) _ _ hmem)

/-- Fact: `insertLE` inserts one element, up to permutation. -/
theorem insertLE_perm {α : Type} (le : α → α → Bool) (x : α) :
    ∀ l : List α, (insertLE le x l).Perm (x :: l) := by
  intro l
  induction l with
  | nil => simp [insertLE]
  | cons y ys ih =>
    rw [insertLE]
    by_cases h : le x y = true
    · rw [if_pos h]
    · rw [if_neg h]
      exact (ih.cons y).trans (List.Perm.swap x y ys)

/-- Fact: `sortLE` permutes its input. -/
theorem sortLE_perm {α : Type} (le : α → α → Bool) :
    ∀ l : List α, (sortLE le l).Perm l := by
  intro l
  induction l with
  | nil => simp [sortLE]
  | cons y ys ih =>
    rw [sortLE]
    exact (insertLE_perm le y (sortLE le ys)).trans (ih.cons y)

/-- Claim C8 (amended). When the city-filtered pool's spot IDs are pairwise
distinct (CSV import deduplicates by ID, so real master data satisfies
this), `selectCpSpotsMVP` returns pairwise-distinct IDs, each from the
city-filtered pool, of length `min(clamp(cpCount,0,5), |filtered pool|)`;
`cpCount ≤ 0` yields the empty list; and the city filter keeps a spot iff it
is in the input and, whenever a filter with an enabled flag is configured,
its trimmed address is nonempty and substring-matches an enabled city. -/
theorem selectCpSpotsMVP_spec (hav : LatLng → LatLng → Rat) (rand : Nat → Nat)
    (allJudgeSpots : List Spot) (config : GameConfig)
    (hnodup : ((filterCpPoolByCity allJudgeSpots config).map Spot.ID).Nodup) :
    (selectCpSpotsMVP hav rand allJudgeSpots config).Nodup ∧
    (∀ id ∈ selectCpSpotsMVP hav rand allJudgeSpots config,
      id ∈ (filterCpPoolByCity allJudgeSpots config).map Spot.ID) ∧
    (selectCpSpotsMVP hav rand allJudgeSpots config).length
      = min (max 0 (min 5 config.cpCount)).toNat
          (filterCpPoolByCity allJudgeSpots config).length ∧
    (config.cpCount ≤ 0 → selectCpSpotsMVP hav rand allJudgeSpots config = []) ∧
    (∀ s, s ∈ filterCpPoolByCity allJudgeSpots config ↔
      s ∈ allJudgeSpots ∧
      (∀ f, config.cityFilter = some f →
        (f.ibusuki || f.minamikyushu || f.makurazaki) = true →
        (strTrim ((s.Address).getD "") ≠ "" ∧
          ((f.ibusuki = true ∧
              strIncludes (strTrim ((s.Address).getD "")) "指宿市" = true) ∨
           (f.minamikyushu = true ∧
              strIncludes (strTrim ((s.Address).getD "")) "南九州市" = true) ∨
           (f.makurazaki = true ∧
              strIncludes (strTrim ((s.Address).getD "")) "枕崎市" = true))))) := by
  have key : (selectCpSpotsMVP hav rand allJudgeSpots config).Nodup ∧
      (∀ id ∈ selectCpSpotsMVP hav rand allJudgeSpots config,
        id ∈ (filterCpPoolByCity allJudgeSpots config).map Spot.ID) ∧
      (selectCpSpotsMVP hav rand allJudgeSpots config).length
        = min (max 0 (min 5 config.cpCount)).toNat
            (filterCpPoolByCity allJudgeSpots config).length := by
    unfold selectCpSpotsMVP
    dsimp only
    split
    · rename_i h0
      refine ⟨by simp, by simp, ?_⟩
      rw [h0]
      simp
    · rename_i h0
      split
      · rename_i h2
        have hperm := sortLE_perm (fun (a b : String × Rat) => decide (a.2 ≤ b.2))
          ((filterCpPoolByCity allJudgeSpots config).map
            (fun s => (s.ID, detourRatioMVP hav allJudgeSpots config.start config.goal s)))
        have hlen : (sortLE (fun (a b : String × Rat) => decide (a.2 ≤ b.2))
            ((filterCpPoolByCity allJudgeSpots config).map
              (fun s => (s.ID, detourRatioMVP hav allJudgeSpots config.start config.goal s)))).length
            = (filterCpPoolByCity allJudgeSpots config).length := by
          rw [hperm.length_eq, List.length_map]
        have hmapperm := hperm.map Prod.fst
        rw [List.map_map] at hmapperm
        have hmapperm2 : ((sortLE (fun (a b : String × Rat) => decide (a.2 ≤ b.2))
            ((filterCpPoolByCity allJudgeSpots config).map
              (fun s => (s.ID, detourRatioMVP hav allJudgeSpots config.start config.goal s)))).map
                (fun x => x.1)).Perm
              ((filterCpPoolByCity allJudgeSpots config).map Spot.ID) := hmapperm
        refine ⟨?_, ?_, ?_⟩
        · apply drawLoop_nodup
          rw [List.map_take]
          exact (List.take_sublist _ _).nodup (hmapperm2.nodup_iff.mpr hnodup)
        · intro id hid
          have hin := drawLoop_subset rand _ 0 _ id hid
          rw [List.map_take] at hin
          exact hmapperm2.mem_iff.mp ((List.take_subset _ _) hin)
        · rw [drawLoop_length, List.length_map, List.length_take, hlen]
          omega
      · rename_i h2
        refine ⟨drawLoop_nodup _ _ _ _ hnodup, ?_, ?_⟩
        · intro id hid
          exact drawLoop_subset rand _ 0 _ id hid
        · rw [drawLoop_length, List.length_map]
  refine ⟨key.1, key.2.1, key.2.2, ?_, ?_⟩
  · intro hcp
    unfold selectCpSpotsMVP
    rw [if_pos (by omega)]
  · intro s
    clear key hnodup
    cases hcf : config.cityFilter with
    | none =>
      have hstep : filterCpPoolByCity allJudgeSpots config = allJudgeSpots := by
        unfold filterCpPoolByCity
        rw [hcf]
      rw [hstep]
      constructor
      · intro hmem
        refine ⟨hmem, ?_⟩
        rintro f hf
        cases hf
      · exact fun h => h.1
    | some f =>
      have hstep : filterCpPoolByCity allJudgeSpots config
          = if (!(f.ibusuki || f.minamikyushu || f.makurazaki)) = true then allJudgeSpots
            else allJudgeSpots.filter (fun s =>
              let addr := strTrim ((s.Address).getD "")
              if addr = "" then false
              else if f.ibusuki && strIncludes addr "指宿市" then true
              else if f.minamikyushu && strIncludes addr "南九州市" then true
              else if f.makurazaki && strIncludes addr "枕崎市" then true
              else false) := by
        unfold filterCpPoolByCity
        rw [hcf]
      rw [hstep]
      by_cases hany : (f.ibusuki || f.minamikyushu || f.makurazaki) = true
      · rw [if_neg (by simp [hany])]
        rw [List.mem_filter]
        constructor
        · rintro ⟨hmem, hpred⟩
          refine ⟨hmem, ?_⟩
          rintro f' hf' _
          injection hf' with e
          subst e
          dsimp only at hpred
          split_ifs at hpred with h1 h2 h3 h4 <;> simp_all [Bool.and_eq_true]
        · rintro ⟨hmem, hcond⟩
          obtain ⟨hne, hdisj⟩ := hcond f rfl hany
          refine ⟨hmem, ?_⟩
          dsimp only
          rw [if_neg hne]
          have hor : (f.ibusuki && strIncludes (strTrim ((s.Address).getD "")) "指宿市") = true
              ∨ (f.minamikyushu && strIncludes (strTrim ((s.Address).getD "")) "南九州市") = true
              ∨ (f.makurazaki && strIncludes (strTrim ((s.Address).getD "")) "枕崎市") = true := by
            rcases hdisj with ⟨hf, hinc⟩ | ⟨hf, hinc⟩ | ⟨hf, hinc⟩
            · exact Or.inl (by rw [hf, hinc]; rfl)
            · exact Or.inr (Or.inl (by rw [hf, hinc]; rfl))
            · exact Or.inr (Or.inr (by rw [hf, hinc]; rfl))
          rcases hor with h | h | h
          · rw [if_pos h]
          · by_cases hc1 : (f.ibusuki && strIncludes (strTrim ((s.Address).getD "")) "指宿市") = true
            · rw [if_pos hc1]
            · rw [if_neg hc1, if_pos h]
          · by_cases hc1 : (f.ibusuki && strIncludes (strTrim ((s.Address).getD "")) "指宿市") = true
            · rw [if_pos hc1]
            · by_cases hc2 : (f.minamikyushu && strIncludes (strTrim ((s.Address).getD "")) "南九州市") = true
              · rw [if_neg hc1, if_pos hc2]
              · rw [if_neg hc1, if_neg hc2, if_pos h]
      · rw [if_pos (by simpa using hany)]
        constructor
        · intro hmem
          refine ⟨hmem, ?_⟩
          rintro f' hf' hany'
          injection hf' with e
          subst e
          exact absurd hany' hany
        · exact fun h => h.1

/-- Claim C8 counterexample. On a pool containing two spots with the same ID
(no city filter), `selectCpSpotsMVP` with `cpCount = 3` draws both copies:
the returned list `["A", "A"]` is not pairwise distinct, refuting the claim
as stated for every judge-spot pool. -/
theorem selectCpSpotsMVP_counterexample :
    ¬ (selectCpSpotsMVP havZero (fun _ => 0) [dupSpot, dupSpot]
        { cfgW with cpCount := 3 }).Nodup := by
  decide

/-- Claim C8 witness. On the one-spot pool with distinct IDs and `cpCount = 1`,
the full amended specification holds. -/
theorem selectCpSpotsMVP_spec_witness :
    (selectCpSpotsMVP havZero (fun _ => 0) [spotW] cfgW1).Nodup ∧
    (∀ id ∈ selectCpSpotsMVP havZero (fun _ => 0) [spotW] cfgW1,
      id ∈ (filterCpPoolByCity [spotW] cfgW1).map Spot.ID) ∧
    (selectCpSpotsMVP havZero (fun _ => 0) [spotW] cfgW1).length
      = min (max 0 (min 5 cfgW1.cpCount)).toNat (filterCpPoolByCity [spotW] cfgW1).length ∧
    (cfgW1.cpCount ≤ 0 → selectCpSpotsMVP havZero (fun _ => 0) [spotW] cfgW1 = []) ∧
    (∀ s, s ∈ filterCpPoolByCity [spotW] cfgW1 ↔
      s ∈ [spotW] ∧
      (∀ f, cfgW1.cityFilter = some f →
        (f.ibusuki || f.minamikyushu || f.makurazaki) = true →
        (strTrim ((s.Address).getD "") ≠ "" ∧
          ((f.ibusuki = true ∧
              strIncludes (strTrim ((s.Address).getD "")) "指宿市" = true) ∨
           (f.minamikyushu = true ∧
              strIncludes (strTrim ((s.Address).getD "")) "南九州市" = true) ∨
           (f.makurazaki = true ∧
              strIncludes (strTrim ((s.Address).getD "")) "枕崎市" = true))))) :=
  selectCpSpotsMVP_spec havZero (fun _ => 0) [spotW] cfgW1 (by decide)

/-- Fact: `String.append` acts as append on the underlying character lists. -/
theorem strData_append (a b : String) : (a ++ b).data = a.data ++ b.data := by
  cases a; cases b; rfl

/-- Two differently-prefixed IDs never coincide when neither prefix extends
the other. -/
theorem prefixed_ne (pre1 pre2 t1 t2 : String)
    (h1 : ¬ pre1.data <+: pre2.data) (h2 : ¬ pre2.data <+: pre1.data) :
    pre1 ++ t1 ≠ pre2 ++ t2 := by
  intro he
  have hd := congrArg String.data he
  rw [strData_append, strData_append] at hd
  rcases List.append_eq_append_iff.mp hd with ⟨a, ha1, _⟩ | ⟨c, hc1, _⟩
  · exact h1 ⟨a, ha1.symm⟩
  · exact h2 ⟨c, hc1.symm⟩

/-- A prefixed ID never equals a constant the prefix does not start. -/
theorem prefixed_ne_const (pre t c : String) (h : ¬ pre.data <+: c.data) :
    pre ++ t ≠ c := by
  intro he
  apply h
  have hd := congrArg String.data he
  rw [strData_append] at hd
  exact ⟨t.data, hd⟩

/-- Appending to a fixed prefix is injective. -/
theorem append_left_inj (pre a b : String) (h : pre ++ a = pre ++ b) : a = b := by
  have hd := congrArg String.data h
  rw [strData_append, strData_append] at hd
  have hdata := List.append_cancel_left hd
  cases a; cases b
  exact congrArg String.mk hdata

/-- The group-key list is duplicate-free. -/
theorem groupKeys_nodup (targets : List Spot) (key : Spot → Option String) :
    (groupKeys targets key).Nodup := by
  unfold groupKeys
  suffices H : ∀ acc : List String, acc.Nodup →
      (targets.foldl (fun ks s =>
        let k := strTrim ((key s).getD "")
        if k = "" then ks else if k ∈ ks then ks else ks ++ [k]) acc).Nodup from
    H [] (by simp)
  induction targets with
  | nil => intro acc h; simpa using h
  | cons s rest ih =>
    intro acc h
    simp only [List.foldl_cons]
    by_cases h1 : strTrim ((key s).getD "") = ""
    · rw [if_pos h1]; exact ih acc h
    · rw [if_neg h1]
      by_cases h2 : strTrim ((key s).getD "") ∈ acc
      · rw [if_pos h2]; exact ih acc h
      · rw [if_neg h2]
        apply ih
        rw [List.nodup_append]
        refine ⟨h, List.nodup_singleton _, ?_⟩
        intro x hx hxk
        exact h2 ((List.mem_singleton.mp hxk) ▸ hx)

/-- Mapping IDs commutes with the game-unlock `push`. -/
theorem map_id_pushU (l : List AchievementUnlock) (u : AchievementUnlock) :
    (pushU l u).map (fun x => x.id) = pushId (l.map (fun x => x.id)) u.id := by
  unfold pushU pushId
  by_cases h : l.any (fun x => x.id = u.id) = true
  · rw [if_pos h, if_pos]
    rw [List.mem_map]
    rw [List.any_eq_true] at h
    obtain ⟨x, hx, he⟩ := h
    exact ⟨x, hx, of_decide_eq_true he⟩
  · rw [if_neg h, if_neg]
    · simp
    · rw [List.mem_map]
      rintro ⟨x, hx, he⟩
      exact h (List.any_eq_true.mpr ⟨x, hx, decide_eq_true he⟩)

/-- Mapping IDs commutes with a guarded `pushU` fold. -/
theorem map_id_foldl_pushU {κ : Type} (c : κ → Bool) (f : κ → AchievementUnlock) :
    ∀ (ks : List κ) (acc : List AchievementUnlock),
      ((ks.foldl (fun a k => if c k then pushU a (f k) else a) acc).map (fun x => x.id))
        = ks.foldl (fun a k => if c k then pushId a (f k).id else a)
            (acc.map (fun x => x.id)) := by
  intro ks
  induction ks with
  | nil => intro acc; simp
  | cons k rest ih =>
    intro acc
    simp only [List.foldl_cons]
    by_cases hc : c k = true
    · rw [if_pos hc, if_pos hc, ih, map_id_pushU]
    · rw [if_neg hc, if_neg hc, ih]

/-- A guarded `pushU` fold, when all pushed IDs are pairwise distinct and
absent from the accumulator, is plain appending of the kept entries. -/
theorem foldl_pushU_append {κ : Type} (c : κ → Bool) (f : κ → AchievementUnlock)
    (idOf : κ → String) (hid : ∀ k, (f k).id = idOf k) :
    ∀ (ks : List κ) (acc : List AchievementUnlock),
      List.Pairwise (fun k1 k2 => idOf k1 ≠ idOf k2) ks →
      (∀ k ∈ ks, ∀ u ∈ acc, u.id ≠ idOf k) →
      ks.foldl (fun a k => if c k then pushU a (f k) else a) acc
        = acc ++ (ks.filter c).map f := by
  intro ks
  induction ks with
  | nil => intro acc _ _; simp
  | cons k rest ih =>
    intro acc hpw hdisj
    simp only [List.foldl_cons, List.filter_cons]
    by_cases hc : c k = true
    · rw [if_pos hc, if_pos hc]
      have hpush : pushU acc (f k) = acc ++ [f k] := by
        unfold pushU
        rw [if_neg]
        rw [List.any_eq_true]
        rintro ⟨x, hx, he⟩
        exact hdisj k (by simp) x hx (by rw [of_decide_eq_true he, hid k])
      rw [hpush, ih (acc ++ [f k]) (List.pairwise_cons.mp hpw).2]
      · simp
      · intro k' hk' u hu
        rcases List.mem_append.mp hu with h | h
        · exact hdisj k' (List.mem_cons_of_mem _ hk') u h
        · rw [List.mem_singleton] at h
          subst h
          rw [hid k]
          exact (List.pairwise_cons.mp hpw).1 k' hk'
    · rw [if_neg hc, if_neg hc]
      exact ih acc (List.pairwise_cons.mp hpw).2
        (fun k' hk' => hdisj k' (List.mem_cons_of_mem _ hk'))

/-- Mapping IDs over the guarded first push. -/
theorem map_id_if_pushU (b : Bool) (u : AchievementUnlock) :
    ((if b = true then pushU [] u else []).map (fun x => x.id))
      = if b = true then pushId [] u.id else [] := by
  cases b <;> simp [pushU, pushId]

/-- Claim C10. The per-game and cumulative unlock computations implement the
same unlock condition over the same groupings: the IDs produced by
`computeGameUnlocks` on a progress coincide (as a list, hence as a set) with
`computeCumulativeUnlockedIds` applied to the same visited-ID set and
judge-spot list. -/
theorem game_cumulative_ids_eq (p : GameProgress) (judgeSpots : List Spot) :
    (computeGameUnlocks p judgeSpots).map (fun u => u.id)
      = computeCumulativeUnlockedIds p.visitedSpotIds judgeSpots := by
  unfold computeGameUnlocks computeCumulativeUnlockedIds
  dsimp only
  rw [map_id_foldl_pushU, map_id_foldl_pushU, map_id_foldl_pushU, map_id_if_pushU]

/-- Membership in the guarded first push. -/
theorem mem_if_pushU_nil (c : Prop) [Decidable c] (v u : AchievementUnlock) :
    (u ∈ (if c then pushU [] v else [])) ↔ (c ∧ u = v) := by
  split_ifs with h <;> simp [pushU, h]

/-- Claim C9. `computeGameUnlocks` contains a grouping's achievement exactly
when the group is nonempty and every spot of the group is visited, with the
claimed point values: all-spots 6000, city groups 2000, postal groups by the
step function on group size, category groups 500. -/
theorem computeGameUnlocks_mem_iff (judgeSpots : List Spot) (p : GameProgress)
    (u : AchievementUnlock) :
    u ∈ computeGameUnlocks p judgeSpots ↔
      ((judgeTargets judgeSpots ≠ [] ∧
          ∀ s ∈ judgeTargets judgeSpots, s.ID ∈ p.visitedSpotIds) ∧
        u = { id := ACH_ID_ALL_SPOTS, name := "全スポット巡回達成", points := 6000 }) ∨
      (∃ g ∈ cityGroupsBase,
        (cityGroupSpots (judgeTargets judgeSpots) g.2 ≠ [] ∧
          ∀ s ∈ cityGroupSpots (judgeTargets judgeSpots) g.2, s.ID ∈ p.visitedSpotIds) ∧
        u = { id := g.1, name := cityGroupName g.2, points := 2000 }) ∨
      (∃ k ∈ groupKeys (judgeTargets judgeSpots) Spot.PostalCode,
        (groupOf (judgeTargets judgeSpots) Spot.PostalCode k ≠ [] ∧
          ∀ s ∈ groupOf (judgeTargets judgeSpots) Spot.PostalCode k,
            s.ID ∈ p.visitedSpotIds) ∧
        u = { id := makePostalId k, name := "地域（郵便番号：" ++ k ++ "）全スポット巡回達成",
              points := postalPoints
                (groupOf (judgeTargets judgeSpots) Spot.PostalCode k).length }) ∨
      (∃ k ∈ groupKeys (judgeTargets judgeSpots) Spot.Category,
        (groupOf (judgeTargets judgeSpots) Spot.Category k ≠ [] ∧
          ∀ s ∈ groupOf (judgeTargets judgeSpots) Spot.Category k,
            s.ID ∈ p.visitedSpotIds) ∧
        u = { id := makeCategoryId k, name := "カテゴリ（" ++ k ++ "）全スポット巡回達成",
              points := 500 }) := by
  unfold computeGameUnlocks
  dsimp only
  set T := judgeTargets judgeSpots with hT
  set V := p.visitedSpotIds with hV
  have hcity : ∀ acc : List AchievementUnlock,
      (∀ w ∈ acc, ∀ g ∈ cityGroupsBase, w.id ≠ g.1) →
      cityGroupsBase.foldl (fun a g =>
        if (cityGroupSpots T g.2).length ≠ 0 &&
            (cityGroupSpots T g.2).all (fun s => decide (s.ID ∈ V)) then
          pushU a { id := g.1, name := cityGroupName g.2, points := 2000 }
        else a) acc
      = acc ++ (cityGroupsBase.filter (fun g =>
          (cityGroupSpots T g.2).length ≠ 0 &&
            (cityGroupSpots T g.2).all (fun s => decide (s.ID ∈ V)))).map
          (fun g => { id := g.1, name := cityGroupName g.2, points := 2000 }) := by
    intro acc hd
    exact foldl_pushU_append _ _ (fun g => g.1) (fun g => rfl) cityGroupsBase acc
      (by decide) (fun k hk w hw => hd w hw k hk)
  have hpostal : ∀ acc : List AchievementUnlock,
      (∀ w ∈ acc, ∀ k ∈ groupKeys T Spot.PostalCode, w.id ≠ makePostalId k) →
      (groupKeys T Spot.PostalCode).foldl (fun a k =>
        if (groupOf T Spot.PostalCode k).length ≠ 0 &&
            (groupOf T Spot.PostalCode k).all (fun s => decide (s.ID ∈ V)) then
          pushU a { id := makePostalId k,
                    name := "地域（郵便番号：" ++ k ++ "）全スポット巡回達成",
                    points := postalPoints (groupOf T Spot.PostalCode k).length }
        else a) acc
      = acc ++ ((groupKeys T Spot.PostalCode).filter (fun k =>
          (groupOf T Spot.PostalCode k).length ≠ 0 &&
            (groupOf T Spot.PostalCode k).all (fun s => decide (s.ID ∈ V)))).map
          (fun k => { id := makePostalId k,
                      name := "地域（郵便番号：" ++ k ++ "）全スポット巡回達成",
                      points := postalPoints (groupOf T Spot.PostalCode k).length }) := by
    intro acc hd
    exact foldl_pushU_append _ _ (fun k => makePostalId k) (fun k => rfl) _ acc
      ((groupKeys_nodup T Spot.PostalCode).imp
        (fun hne he => hne (append_left_inj "ACH_POSTAL_" _ _ he)))
      (fun k hk w hw => hd w hw k hk)
  have hcat : ∀ acc : List AchievementUnlock,
      (∀ w ∈ acc, ∀ k ∈ groupKeys T Spot.Category, w.id ≠ makeCategoryId k) →
      (groupKeys T Spot.Category).foldl (fun a k =>
        if (groupOf T Spot.Category k).length ≠ 0 &&
            (groupOf T Spot.Category k).all (fun s => decide (s.ID ∈ V)) then
          pushU a { id := makeCategoryId k,
                    name := "カテゴリ（" ++ k ++ "）全スポット巡回達成",
                    points := 500 }
        else a) acc
      = acc ++ ((groupKeys T Spot.Category).filter (fun k =>
          (groupOf T Spot.Category k).length ≠ 0 &&
            (groupOf T Spot.Category k).all (fun s => decide (s.ID ∈ V)))).map
          (fun k => { id := makeCategoryId k,
                      name := "カテゴリ（" ++ k ++ "）全スポット巡回達成",
                      points := 500 }) := by
    intro acc hd
    exact foldl_pushU_append _ _ (fun k => makeCategoryId k) (fun k => rfl) _ acc
      ((groupKeys_nodup T Spot.Category).imp
        (fun hne he => hne (append_left_inj "ACH_CAT_" _ _ he)))
      (fun k hk w hw => hd w hw k hk)
  rw [hcity _ ?hd1]
  case hd1 =>
    intro w hw g hg
    rw [mem_if_pushU_nil] at hw
    rw [hw.2]
    simp only [cityGroupsBase, List.mem_cons, List.not_mem_nil, or_false] at hg
    rcases hg with rfl | rfl | rfl <;> decide
  rw [hpostal _ ?hd2]
  case hd2 =>
    intro w hw k _
    rcases List.mem_append.mp hw with h | h
    · rw [mem_if_pushU_nil] at h
      rw [h.2]
      exact Ne.symm (prefixed_ne_const "ACH_POSTAL_" k "ACH_ALL_SPOTS" (by decide))
    · rw [List.mem_map] at h
      obtain ⟨g, hgf, rfl⟩ := h
      have hg := (List.mem_filter.mp hgf).1
      simp only [cityGroupsBase, List.mem_cons, List.not_mem_nil, or_false] at hg
      rcases hg with rfl | rfl | rfl <;>
        exact Ne.symm (prefixed_ne_const "ACH_POSTAL_" k _ (by decide))
  rw [hcat _ ?hd3]
  case hd3 =>
    intro w hw k _
    rcases List.mem_append.mp hw with h | h
    · rcases List.mem_append.mp h with h2 | h2
      · rw [mem_if_pushU_nil] at h2
        rw [h2.2]
        exact Ne.symm (prefixed_ne_const "ACH_CAT_" _ "ACH_ALL_SPOTS" (by decide))
      · rw [List.mem_map] at h2
        obtain ⟨g, hgf, rfl⟩ := h2
        have hg := (List.mem_filter.mp hgf).1
        simp only [cityGroupsBase, List.mem_cons, List.not_mem_nil, or_false] at hg
        rcases hg with rfl | rfl | rfl <;>
          exact Ne.symm (prefixed_ne_const "ACH_CAT_" _ _ (by decide))
    · rw [List.mem_map] at h
      obtain ⟨k', _, rfl⟩ := h
      show makePostalId k' ≠ makeCategoryId k
      exact prefixed_ne "ACH_POSTAL_" "ACH_CAT_" k' _ (by decide) (by decide)
  simp only [List.mem_append, List.mem_map, List.mem_filter, mem_if_pushU_nil,
    Bool.and_eq_true, decide_eq_true_eq, List.all_eq_true,
    ne_eq, List.length_eq_zero, gt_iff_lt, List.length_pos]
  constructor
  · rintro (((⟨hc, rfl⟩ | ⟨a, ⟨ha, hp⟩, rfl⟩) | ⟨a, ⟨ha, hp⟩, rfl⟩) | ⟨a, ⟨ha, hp⟩, rfl⟩)
    · exact Or.inl ⟨hc, rfl⟩
    · exact Or.inr (Or.inl ⟨a, ha, hp, rfl⟩)
    · exact Or.inr (Or.inr (Or.inl ⟨a, ha, hp, rfl⟩))
    · exact Or.inr (Or.inr (Or.inr ⟨a, ha, hp, rfl⟩))
  · rintro (⟨hc, rfl⟩ | ⟨g, hg, hp, rfl⟩ | ⟨k, hk, hp, rfl⟩ | ⟨k, hk, hp, rfl⟩)
    · exact Or.inl (Or.inl (Or.inl ⟨hc, rfl⟩))
    · exact Or.inl (Or.inl (Or.inr ⟨g, ⟨hg, hp⟩, rfl⟩))
    · exact Or.inl (Or.inr ⟨k, ⟨hk, hp⟩, rfl⟩)
    · exact Or.inr ⟨k, ⟨hk, hp⟩, rfl⟩
